import Mathlib

/-!
# EuroCV: a shallow embedding of the resume-to-Europass pipeline

This development embeds the core of the EuroCV repository in Lean 4:
the data models (`models.py`), the Europass mapper (`europass_mapper.py`),
the structural JSON validator (`schema_validator.py`), the extractor
registry (`registry.py`), and the heuristic text extractors of
`generic_pdf_extractor.py` / `docx_extractor.py` (section splitter,
language, skill and work-experience extraction).

Python strings are modelled as Lean `String` (operated on through
`List Char`), Python `date` as a year/month/day record, Python dicts
as insertion-ordered association lists, and JSON trees as the
inductive `JValue`.  Regular expressions used by the source are
compiled by hand into explicit scanning functions with the same
leftmost / alternation-order semantics.
-/

namespace EuroCV

/-! ## Python-flavoured string helpers -/

/-- Python `str.strip` whitespace class: space, tab, newline, carriage
return, vertical tab, form feed. -/
def pyIsSpace (c : Char) : Bool :=
  c = ' ' || c = '\t' || c = '\n' || c = '\x0d' || c = '\x0b' || c = '\x0c'

/-- Python regex `\w` on ASCII input: letters, digits, underscore. -/
def isWordChar (c : Char) : Bool :=
  c.isAlphanum || c = '_'

/-- Lowercase a character (ASCII, as in `str.lower` on the inputs used). -/
def lowChar (c : Char) : Char := c.toLower

/-- Lowercase a character list. -/
def lowList (s : List Char) : List Char := s.map lowChar

/-- Python `str.strip()` on a character list. -/
def pstripList (s : List Char) : List Char :=
  ((s.dropWhile pyIsSpace).reverse.dropWhile pyIsSpace).reverse

/-- Python `str.strip()`. -/
def pstrip (s : String) : String := String.mk (pstripList s.toList)

/-- Python `str.lower()`. -/
def plower (s : String) : String := String.mk (lowList s.toList)

/-- Case-sensitive literal match of `pat` at the head of `s`. -/
def litAt : List Char → List Char → Bool
  | [], _ => true
  | _ :: _, [] => false
  | p :: ps, c :: cs => p = c && litAt ps cs

/-- Case-insensitive literal match of `pat` at the head of `s`. -/
def litAtCI : List Char → List Char → Bool
  | [], _ => true
  | _ :: _, [] => false
  | p :: ps, c :: cs => lowChar p = lowChar c && litAtCI ps cs

/-- Case-sensitive substring test (Python `pat in s`). -/
def containsSub (pat : List Char) (s : List Char) : Bool :=
  litAt pat s ||
    match s with
    | [] => false
    | _ :: cs => containsSub pat cs

/-- Case-insensitive substring test (`pat in s.lower()` for lowercase `pat`). -/
def containsSubCI (pat : List Char) (s : List Char) : Bool :=
  litAtCI pat s ||
    match s with
    | [] => false
    | _ :: cs => containsSubCI pat cs

/-- Offset of the first case-insensitive occurrence of `pat` in `s`
(Python `s.lower().find(pat.lower())`), or `none`. -/
def findSubCI (pat : List Char) : List Char → Option Nat
  | [] => if litAtCI pat [] then some 0 else none
  | c :: cs =>
    if litAtCI pat (c :: cs) then some 0
    else (findSubCI pat cs).map (· + 1)

/-- One case-insensitive occurrence of `pat` at offset `p` of `s`, with
word boundaries on both sides.  This is Python `\bpat\b` for patterns whose
first and last characters are word characters (every pattern the source
uses with `\b` has that shape). -/
def wordOccurAt (pat : List Char) (s : List Char) (p : Nat) : Bool :=
  litAtCI pat (s.drop p) &&
    (p = 0 || !isWordChar (s.getD (p - 1) ' ')) &&
    (p + pat.length ≥ s.length || !isWordChar (s.getD (p + pat.length) ' '))

/-- Scan positions `p, p+1, ...` (where `rest = s.drop p`) for a
word-bounded case-insensitive occurrence of `pat`. -/
def containsWordFrom (pat : List Char) (s : List Char) : List Char → Nat → Bool
  | [], p => wordOccurAt pat s p
  | _ :: cs, p => wordOccurAt pat s p || containsWordFrom pat s cs (p + 1)

/-- Python `re.search(rf"\b{pat}\b", s, re.IGNORECASE) is not None`
for word-character-edged literal patterns. -/
def containsWordCI (pat : List Char) (s : List Char) : Bool :=
  containsWordFrom pat s s 0

/-- String-level wrapper for `containsWordCI`. -/
def strContainsWordCI (pat s : String) : Bool :=
  containsWordCI pat.toList s.toList

/-- String-level wrapper for `containsSub`. -/
def strContainsSub (pat s : String) : Bool :=
  containsSub pat.toList s.toList

/-- Python slice `s[a:b]` on a character list. -/
def pySlice (s : List Char) (a b : Nat) : List Char :=
  (s.take b).drop a

/-- Python truthiness of an optional string (`None` and `""` are falsy). -/
def optTruthy : Option String → Bool
  | some s => !s.isEmpty
  | none => false

/-- Python truthiness of optional bytes (`None` and `b""` are falsy). -/
def bytesTruthy : Option (List Nat) → Bool
  | some bs => !bs.isEmpty
  | none => false

/-- Python `str.split()` with no separator: split on whitespace runs,
discarding empty tokens.  Used only for word counting. -/
def pySplitWS (s : List Char) : List (List Char) :=
  go s []
where
  /-- Accumulate the current token (reversed) while scanning. -/
  go : List Char → List Char → List (List Char)
    | [], acc => if acc.isEmpty then [] else [acc.reverse]
    | c :: cs, acc =>
      if pyIsSpace c then
        if acc.isEmpty then go cs [] else acc.reverse :: go cs []
      else go cs (c :: acc)

/-! ## Python `date` and the data models of `models.py` -/

/-- Python `datetime.date`: year, month (1-12), day (1-31). -/
structure PyDate where
  year : Nat
  month : Nat
  day : Nat
deriving Repr, DecidableEq

/-- `models.PersonalInfo`. -/
structure PersonalInfo where
  first_name : Option String := none
  last_name : Option String := none
  email : Option String := none
  phone : Option String := none
  address : Option String := none
  city : Option String := none
  postal_code : Option String := none
  country : Option String := none
  date_of_birth : Option PyDate := none
  nationality : Option String := none
  photo : Option (List Nat) := none
deriving Repr, DecidableEq

/-- `models.WorkExperience`. -/
structure WorkExperience where
  position : Option String := none
  employer : Option String := none
  city : Option String := none
  country : Option String := none
  start_date : Option PyDate := none
  end_date : Option PyDate := none
  current : Bool := false
  description : Option String := none
  activities : List String := []
deriving Repr, DecidableEq

/-- `models.Education`. -/
structure Education where
  title : Option String := none
  organization : Option String := none
  city : Option String := none
  country : Option String := none
  start_date : Option PyDate := none
  end_date : Option PyDate := none
  current : Bool := false
  description : Option String := none
  level : Option String := none
deriving Repr, DecidableEq

/-- `models.Language`. -/
structure Language where
  language : String
  listening : Option String := none
  reading : Option String := none
  speaking : Option String := none
  writing : Option String := none
  is_native : Bool := false
deriving Repr, DecidableEq

/-- `models.Skill`. -/
structure Skill where
  name : String
  level : Option String := none
  category : Option String := none
deriving Repr, DecidableEq

/-- `models.Certification`. -/
structure Certification where
  name : String
  issuer : Option String := none
  date : Option PyDate := none
deriving Repr, DecidableEq

/-- `models.Resume` (the aggregate root; `metadata` is not consumed by any
embedded component and is modelled as a list of string pairs). -/
structure Resume where
  personal_info : PersonalInfo := {}
  work_experience : List WorkExperience := []
  education : List Education := []
  languages : List Language := []
  skills : List Skill := []
  certifications : List Certification := []
  summary : Option String := none
  raw_text : Option String := none
  metadata : List (String × String) := []
deriving Repr, DecidableEq

/-! ## JSON values and insertion-ordered dictionaries -/

/-- A JSON tree, as produced by `EuropassCV.to_json`. -/
inductive JValue where
  | str : String → JValue
  | num : Int → JValue
  | bool : Bool → JValue
  | arr : List JValue → JValue
  | obj : List (String × JValue) → JValue
deriving Repr

/-- A Python dict with string keys, in insertion order. -/
abbrev JObj := List (String × JValue)

/-- Dict lookup (`d[k]` / `d.get(k)`); keys in our objects are unique. -/
def jLookup : JObj → String → Option JValue
  | [], _ => none
  | (k, v) :: rest, key => if k = key then some v else jLookup rest key

/-- Python `k in d`. -/
def jHasKey (o : JObj) (k : String) : Bool :=
  (jLookup o k).isSome

/-- A dict entry present only under a condition (a guarded Python
`d[k] = v` assignment). -/
def optEntry (cond : Bool) (k : String) (v : JValue) : JObj :=
  if cond then [(k, v)] else []

/-- A dict entry carrying an optional sub-dict (a Python
`if sub is not None: d[k] = sub` assignment). -/
def optObjEntry (o : Option JObj) (k : String) : JObj :=
  match o with
  | some fields => [(k, JValue.obj fields)]
  | none => []

/-! ## Base64 (`base64.b64encode`) -/

/-- The standard base64 alphabet. -/
def b64Alphabet : List Char :=
  "ABCDEFGHIJKLMNOPQRSTUVWXYZabcdefghijklmnopqrstuvwxyz0123456789+/".toList

/-- Character of the base64 alphabet at index `n`. -/
def b64Char (n : Nat) : Char := b64Alphabet.getD n 'A'

/-- `base64.b64encode` on a byte list (bytes are naturals below 256). -/
def b64encode : List Nat → String
  | [] => ""
  | [a] => String.mk [b64Char (a / 4), b64Char (a % 4 * 16), '=', '=']
  | [a, b] =>
    String.mk [b64Char (a / 4), b64Char (a % 4 * 16 + b / 16),
      b64Char (b % 16 * 4), '=']
  | a :: b :: c :: rest =>
    String.mk [b64Char (a / 4), b64Char (a % 4 * 16 + b / 16),
      b64Char (b % 16 * 4 + c / 64), b64Char (c % 64)] ++ b64encode rest

/-! ## `EuropassMapper` (`europass_mapper.py`)

The mapper's only impurity, `datetime.utcnow()`, is passed in as the
`creationDate` argument; `locale` is stored by the Python constructor but
never read, so it is omitted. -/

namespace EuropassMapper

/-- The `{Year, Month, Day}` dict built from a `date` in
`_map_identification`, `_map_work_experience`, `_map_education` and
`_map_certification` (month is always 1-12 hence always emitted; the day
is emitted only when it is not the default 1). -/
def dateFields (d : PyDate) : JObj :=
  [("Year", JValue.num d.year)]
    ++ optEntry (d.month ≠ 0) "Month" (JValue.num d.month)
    ++ optEntry (d.day ≠ 0 && d.day ≠ 1) "Day" (JValue.num d.day)

/-- `EuropassMapper._get_country_code`: curated name to ISO alpha-2 map with
a first-two-letters-uppercased fallback. -/
def getCountryCode (country_name : String) : String :=
  let country_map : List (String × String) :=
    [("netherlands", "NL"), ("germany", "DE"), ("belgium", "BE"),
     ("france", "FR"), ("united kingdom", "GB"), ("uk", "GB"),
     ("united states", "US"), ("usa", "US"), ("spain", "ES"),
     ("italy", "IT"), ("portugal", "PT"), ("poland", "PL"),
     ("sweden", "SE"), ("denmark", "DK"), ("norway", "NO"),
     ("finland", "FI"), ("austria", "AT"), ("switzerland", "CH"),
     ("ireland", "IE"), ("greece", "GR"), ("czech republic", "CZ"),
     ("hungary", "HU"), ("romania", "RO"), ("bulgaria", "BG")]
  let country_lower := pstrip (plower country_name)
  match country_map.lookup country_lower with
  | some code => code
  | none => (String.mk (country_name.toList.take 2)).toUpper

/-- `EuropassMapper._get_isced_label`. -/
def getIscedLabel (code : String) : String :=
  let isced_labels : List (String × String) :=
    [("0", "Early childhood education"), ("1", "Primary education"),
     ("2", "Lower secondary education"), ("3", "Upper secondary education"),
     ("4", "Post-secondary non-tertiary education"),
     ("5", "Short-cycle tertiary education"), ("6", "Bachelor or equivalent"),
     ("7", "Master or equivalent"), ("8", "Doctoral or equivalent")]
  match isced_labels.lookup code with
  | some label => label
  | none => s!"Level {code}"

/-- Word-bounded alternatives of the `master_patterns` regexes
(`\bmaster\b`, `\bmaster's\b`, `\bmsc\b`, `\bm\.?sc\b`, `\bma\b`,
`\bm\.?a\b`, `\bmba\b`), expanded into literals. -/
def masterLiterals : List String :=
  ["master", "master\x27s", "msc", "m.sc", "ma", "m.a", "mba"]

/-- Word-bounded alternatives of the `bachelor_patterns` regexes, expanded
into literals. -/
def bachelorLiterals : List String :=
  ["bachelor", "bachelor\x27s", "bsc", "b.sc", "ba", "b.a", "bs", "b.s",
   "bict", "b.ict"]

/-- `EuropassMapper._infer_education_level`: ordered keyword/regex checks on
the lowercased title. -/
def inferEducationLevel (title : String) : Option JObj :=
  if title.isEmpty then none
  else
    let tl := plower title
    if ["phd", "ph.d", "doctorate", "doctoral", "doctor"].any
        (fun w => strContainsSub w tl) then
      some [("Code", JValue.str "8"), ("Label", JValue.str "Doctoral or equivalent")]
    else if masterLiterals.any (fun w => strContainsWordCI w tl) then
      some [("Code", JValue.str "7"), ("Label", JValue.str "Master or equivalent")]
    else if strContainsSub "premaster" tl then
      some [("Code", JValue.str "7"), ("Label", JValue.str "Master or equivalent")]
    else if bachelorLiterals.any (fun w => strContainsWordCI w tl)
        && !strContainsWordCI "master" tl then
      some [("Code", JValue.str "6"), ("Label", JValue.str "Bachelor or equivalent")]
    else if ["hbo", "associate", "hogeschool"].any (fun w => strContainsSub w tl) then
      if strContainsSub "bachelor" tl then
        some [("Code", JValue.str "6"), ("Label", JValue.str "Bachelor or equivalent")]
      else
        some [("Code", JValue.str "5"),
          ("Label", JValue.str "Short-cycle tertiary education")]
    else if ["high school", "secondary", "diploma", "havo", "vwo",
        "gymnasium"].any (fun w => strContainsSub w tl) then
      some [("Code", JValue.str "3"), ("Label", JValue.str "Upper secondary education")]
    else if ["mbo", "vocational", "technical college"].any
        (fun w => strContainsSub w tl) then
      some [("Code", JValue.str "3"), ("Label", JValue.str "Upper secondary education")]
    else none

/-- The `person_name` dict of `_map_identification`. -/
def personNameFields (pi : PersonalInfo) : JObj :=
  optEntry (optTruthy pi.first_name) "FirstName"
      (JValue.str (pi.first_name.getD ""))
    ++ optEntry (optTruthy pi.last_name) "Surname"
      (JValue.str (pi.last_name.getD ""))

/-- The `address["Contact"]` dict of `_map_identification`. -/
def addressContactFields (pi : PersonalInfo) : JObj :=
  optEntry (optTruthy pi.city) "Municipality" (JValue.str (pi.city.getD ""))
    ++ optEntry (optTruthy pi.postal_code) "PostalCode"
      (JValue.str (pi.postal_code.getD ""))
    ++ optEntry (optTruthy pi.country) "Country"
      (JValue.obj [("Code", JValue.str (pi.country.getD "")),
        ("Label", JValue.str (pi.country.getD ""))])
    ++ optEntry (optTruthy pi.address) "AddressLine"
      (JValue.str (pi.address.getD ""))

/-- The `contact_info` dict of `_map_identification`. -/
def contactInfoFields (pi : PersonalInfo) : JObj :=
  optEntry (optTruthy pi.address || optTruthy pi.city
      || optTruthy pi.postal_code || optTruthy pi.country) "Address"
    (JValue.obj [("Contact", JValue.obj (addressContactFields pi))])
    ++ optEntry (optTruthy pi.email) "Email"
      (JValue.obj [("Contact", JValue.str (pi.email.getD ""))])
    ++ optEntry (optTruthy pi.phone) "Telephone"
      (JValue.arr [JValue.obj [("Contact", JValue.str (pi.phone.getD ""))]])

/-- The `demographics` dict of `_map_identification`. -/
def demographicsFields (pi : PersonalInfo) : JObj :=
  (match pi.date_of_birth with
   | some d => [("Birthdate", JValue.obj (dateFields d))]
   | none => [])
    ++ optEntry (optTruthy pi.nationality) "Nationality"
      (JValue.arr [JValue.obj [("Code", JValue.str (pi.nationality.getD "")),
        ("Label", JValue.str (pi.nationality.getD ""))]])

/-- The `identification` dict of `_map_identification`. -/
def identificationFields (includePhoto : Bool) (pi : PersonalInfo) : JObj :=
  optEntry (optTruthy pi.first_name || optTruthy pi.last_name) "PersonName"
      (JValue.obj (personNameFields pi))
    ++ optEntry (!(contactInfoFields pi).isEmpty) "ContactInfo"
      (JValue.obj (contactInfoFields pi))
    ++ optEntry (!(demographicsFields pi).isEmpty) "Demographics"
      (JValue.obj (demographicsFields pi))
    ++ optEntry (includePhoto && bytesTruthy pi.photo) "Photo"
      (JValue.obj [("MimeType", JValue.str "image/jpeg"),
        ("Data", JValue.str (b64encode (pi.photo.getD [])))])

/-- `EuropassMapper._map_identification`; returns `none` for an empty
identification (the Python function returns `None` then). -/
def mapIdentification (includePhoto : Bool) (resume : Resume) : Option JObj :=
  if (identificationFields includePhoto resume.personal_info).isEmpty then none
  else some (identificationFields includePhoto resume.personal_info)

/-- `EuropassMapper._map_work_experience`. -/
def mapWorkExperience (exp : WorkExperience) : JObj :=
  let period : JObj :=
    (match exp.start_date with
     | some d => [("From", JValue.obj (dateFields d))]
     | none => [])
      ++ (match exp.end_date with
          | some d => [("To", JValue.obj (dateFields d))]
          | none => if exp.current then [("Current", JValue.bool true)] else [])
  let periodPart : JObj := optEntry (!period.isEmpty) "Period" (JValue.obj period)
  let positionPart : JObj :=
    optEntry (optTruthy exp.position) "Position"
      (JValue.obj
        ([("Label", JValue.str (exp.position.getD ""))]
          ++ optEntry
            (["developer", "programmer", "software", "engineer"].any
              (fun kw => strContainsSub kw (plower (exp.position.getD ""))))
            "Code" (JValue.str "2512")))
  let activitiesPart : JObj :=
    if optTruthy exp.description then
      [("Activities", JValue.str (exp.description.getD ""))]
    else if !exp.activities.isEmpty then
      [("Activities", JValue.str (String.intercalate "\n" exp.activities))]
    else []
  let employerContact : JObj :=
    optEntry (optTruthy exp.city) "Municipality" (JValue.str (exp.city.getD ""))
      ++ optEntry (optTruthy exp.country) "Country"
        (JValue.obj [("Code", JValue.str (getCountryCode (exp.country.getD ""))),
          ("Label", JValue.str (exp.country.getD ""))])
  let employer : JObj :=
    optEntry (optTruthy exp.employer) "Name" (JValue.str (exp.employer.getD ""))
      ++ optEntry (optTruthy exp.city || optTruthy exp.country) "ContactInfo"
        (JValue.obj [("Address", JValue.obj [("Contact", JValue.obj employerContact)])])
  let employerPart : JObj :=
    optEntry (!employer.isEmpty) "Employer" (JValue.obj employer)
  periodPart ++ positionPart ++ activitiesPart ++ employerPart

/-- First line of a description, capped at 100 characters
(`edu.description.split("\n")[0][:100]`). -/
def firstLine100 (s : String) : String :=
  String.mk ((s.toList.takeWhile (· ≠ '\n')).take 100)

/-- `EuropassMapper._map_education`. -/
def mapEducation (edu : Education) : JObj :=
  let period : JObj :=
    (match edu.start_date with
     | some d => [("From", JValue.obj (dateFields d))]
     | none => [])
      ++ (match edu.end_date with
          | some d => [("To", JValue.obj (dateFields d))]
          | none => if edu.current then [("Current", JValue.bool true)] else [])
  let periodPart : JObj := optEntry (!period.isEmpty) "Period" (JValue.obj period)
  let titlePart : JObj :=
    if optTruthy edu.title then [("Title", JValue.str (edu.title.getD ""))]
    else if optTruthy edu.description then
      [("Title", JValue.str (firstLine100 (edu.description.getD "")))]
    else []
  let skillsPart : JObj :=
    optEntry (optTruthy edu.description) "Skills"
      (JValue.str (edu.description.getD ""))
  let orgContact : JObj :=
    optEntry (optTruthy edu.city) "Municipality" (JValue.str (edu.city.getD ""))
      ++ optEntry (optTruthy edu.country) "Country"
        (JValue.obj [("Code", JValue.str (getCountryCode (edu.country.getD ""))),
          ("Label", JValue.str (edu.country.getD ""))])
  let organization : JObj :=
    optEntry (optTruthy edu.organization) "Name"
        (JValue.str (edu.organization.getD ""))
      ++ optEntry (optTruthy edu.city || optTruthy edu.country) "ContactInfo"
        (JValue.obj [("Address", JValue.obj [("Contact", JValue.obj orgContact)])])
  let organisationPart : JObj :=
    optEntry (!organization.isEmpty) "Organisation" (JValue.obj organization)
  let levelPart : JObj :=
    if optTruthy edu.level then
      [("Level", JValue.obj [("Code", JValue.str (edu.level.getD "")),
        ("Label", JValue.str (getIscedLabel (edu.level.getD "")))])]
    else
      match inferEducationLevel (edu.title.getD "") with
      | some lv => [("Level", JValue.obj lv)]
      | none => []
  periodPart ++ titlePart ++ skillsPart ++ organisationPart ++ levelPart

/-- `EuropassMapper._map_certification` (to an Achievement entry). -/
def mapCertification (cert : Certification) : JObj :=
  optEntry (!cert.name.isEmpty) "Title"
      (JValue.obj [("Label", JValue.str cert.name)])
    ++ (match cert.date with
        | some d => [("Date", JValue.obj (dateFields d))]
        | none => [])
    ++ optEntry (optTruthy cert.issuer) "IssuedBy" (JValue.str (cert.issuer.getD ""))

/-- The ProficiencyLevel dict of a foreign language in
`EuropassMapper._map_skills`. -/
def proficiencyLevel (lang : Language) : JObj :=
  optEntry (optTruthy lang.listening) "Listening"
      (JValue.str (lang.listening.getD ""))
    ++ optEntry (optTruthy lang.reading) "Reading"
      (JValue.str (lang.reading.getD ""))
    ++ optEntry (optTruthy lang.speaking) "SpokenInteraction"
      (JValue.str (lang.speaking.getD ""))
    ++ optEntry (optTruthy lang.speaking) "SpokenProduction"
      (JValue.str (lang.speaking.getD ""))
    ++ optEntry (optTruthy lang.writing) "Writing"
      (JValue.str (lang.writing.getD ""))

/-- One ForeignLanguage entry in `EuropassMapper._map_skills`. -/
def foreignLanguageEntry (lang : Language) : JValue :=
  JValue.obj
    ([("Description", JValue.obj [("Label", JValue.str lang.language)])]
      ++ optEntry (optTruthy lang.listening || optTruthy lang.reading
          || optTruthy lang.speaking || optTruthy lang.writing)
        "ProficiencyLevel" (JValue.obj (proficiencyLevel lang)))

/-- `EuropassMapper._map_skills`; returns `none` when nothing is mapped. -/
def mapSkills (resume : Resume) : Option JObj :=
  let linguisticPart : JObj :=
    optEntry (!resume.languages.isEmpty) "Linguistic"
      (JValue.obj
        [("MotherTongue",
          JValue.arr ((resume.languages.filter (·.is_native)).map
            (fun lang => JValue.obj
              [("Description", JValue.obj [("Label", JValue.str lang.language)])]))),
         ("ForeignLanguage",
          JValue.arr ((resume.languages.filter (fun l => !l.is_native)).map
            foreignLanguageEntry))])
  let computer_keywords : List String :=
    ["python", "java", "javascript", "sql", "html", "css", "git", "docker",
     "kubernetes", "aws", "azure", "linux", "windows"]
  let isComputer := fun (skill : Skill) =>
    computer_keywords.any (fun kw => strContainsSub kw (plower skill.name))
  let computer_skills := (resume.skills.filter isComputer).map (·.name)
  let other_skills := (resume.skills.filter (fun s => !isComputer s)).map (·.name)
  let skillsParts : JObj :=
    if resume.skills.isEmpty then []
    else
      optEntry (!computer_skills.isEmpty) "Computer"
          (JValue.obj [("Description", JValue.str (String.intercalate ", " computer_skills))])
        ++ optEntry (!other_skills.isEmpty) "Other"
          (JValue.obj [("Description", JValue.str (String.intercalate ", " other_skills))])
  let skills := linguisticPart ++ skillsParts
  if skills.isEmpty then none else some skills

end EuropassMapper

/-- `models.EuropassCV` (the two dict fields; the model's other classes are
unused by the mapper). -/
structure EuropassCV where
  DocumentInfo : JObj := []
  LearnerInfo : JObj := []

/-- The `DocumentInfo` dict of `EuropassMapper.map` (the
`datetime.utcnow().isoformat()` timestamp is the argument). -/
def EuropassMapper.documentInfoFields (creationDate : String) : JObj :=
  [("DocumentType", JValue.str "Europass CV"),
   ("CreationDate", JValue.str creationDate),
   ("Generator", JValue.str "EuroCV"),
   ("XSDVersion", JValue.str "V3.3")]

/-- The guarded `Identification` entry of `learner_info` in `map`. -/
def EuropassMapper.identificationPart (includePhoto : Bool) (resume : Resume) : JObj :=
  optObjEntry (EuropassMapper.mapIdentification includePhoto resume) "Identification"

/-- The guarded `Headline` entry of `learner_info` in `map`. -/
def EuropassMapper.headlinePart (resume : Resume) : JObj :=
  optEntry (optTruthy resume.summary) "Headline"
    (JValue.obj
      [("Type", JValue.obj [("Code", JValue.str "preferred"),
        ("Label", JValue.str "Headline")]),
       ("Description", JValue.obj
        [("Label", JValue.str (String.mk ((resume.summary.getD "").toList.take 500)))])])

/-- The guarded `WorkExperience` entry of `learner_info` in `map`. -/
def EuropassMapper.workPart (resume : Resume) : JObj :=
  optEntry (!resume.work_experience.isEmpty) "WorkExperience"
    (JValue.arr (resume.work_experience.map
      (fun exp => JValue.obj (EuropassMapper.mapWorkExperience exp))))

/-- The guarded `Education` entry of `learner_info` in `map`. -/
def EuropassMapper.educationPart (resume : Resume) : JObj :=
  optEntry (!resume.education.isEmpty) "Education"
    (JValue.arr (resume.education.map
      (fun edu => JValue.obj (EuropassMapper.mapEducation edu))))

/-- The guarded `Skills` entry of `learner_info` in `map`. -/
def EuropassMapper.skillsPart (resume : Resume) : JObj :=
  optObjEntry (EuropassMapper.mapSkills resume) "Skills"

/-- The guarded `Achievement` entry of `learner_info` in `map`. -/
def EuropassMapper.achievementPart (resume : Resume) : JObj :=
  optEntry (!resume.certifications.isEmpty) "Achievement"
    (JValue.arr (resume.certifications.map
      (fun cert => JValue.obj (EuropassMapper.mapCertification cert))))

/-- The `learner_info` dict of `EuropassMapper.map`, assembled in the
source order of its guarded assignments. -/
def EuropassMapper.learnerInfoFields (includePhoto : Bool) (resume : Resume) : JObj :=
  EuropassMapper.identificationPart includePhoto resume
    ++ EuropassMapper.headlinePart resume
    ++ EuropassMapper.workPart resume
    ++ EuropassMapper.educationPart resume
    ++ EuropassMapper.skillsPart resume
    ++ EuropassMapper.achievementPart resume

def EuropassMapper.map (includePhoto : Bool) (creationDate : String)
    (resume : Resume) : EuropassCV :=
  { DocumentInfo := EuropassMapper.documentInfoFields creationDate,
    LearnerInfo := EuropassMapper.learnerInfoFields includePhoto resume }

/-- `EuropassCV.to_json` (`model_dump(exclude_none=True)`: the two dict
fields are never `None`, so the dump is the two-key dict itself). -/
def EuropassCV.toJson (cv : EuropassCV) : JObj :=
  [("DocumentInfo", JValue.obj cv.DocumentInfo),
   ("LearnerInfo", JValue.obj cv.LearnerInfo)]

/-! ## `SchemaValidator.validate_json` (`schema_validator.py`)

The validator receives the output of `EuropassCV.to_json`, a mapping.
Branches the Python code would only reach with a non-mapping /
non-list value (which the mapper never emits) collect no errors here. -/

namespace SchemaValidator

/-- `SchemaValidator._validate_identification`. -/
def validateIdentification (identification : JValue) : List String :=
  match identification with
  | JValue.obj idf =>
    (match jLookup idf "PersonName" with
     | some (JValue.obj person_name) =>
       if !jHasKey person_name "Surname" && !jHasKey person_name "FirstName" then
         ["Identification.PersonName must have at least FirstName or Surname"]
       else []
     | some _ => ["Identification.PersonName must be a dictionary"]
     | none => [])
      ++ (match jLookup idf "ContactInfo" with
          | some (JValue.obj _) => []
          | some _ => ["Identification.ContactInfo must be a dictionary"]
          | none => [])
  | _ => []

/-- `SchemaValidator._validate_work_experience`. -/
def validateWorkExperience (experience : JValue) (index : Nat) : List String :=
  match experience with
  | JValue.obj ef =>
    (match jLookup ef "Period" with
     | some (JValue.obj period) =>
       if !jHasKey period "From" then
         [s!"WorkExperience[{index}].Period must have a \x27From\x27 date"]
       else []
     | some _ => []
     | none => [])
  | _ => []

/-- `SchemaValidator._validate_education`. -/
def validateEducation (education : JValue) (index : Nat) : List String :=
  match education with
  | JValue.obj ef =>
    (if !jHasKey ef "Title" then [s!"Education[{index}] must have a Title"] else [])
      ++ (match jLookup ef "Period" with
          | some (JValue.obj period) =>
            if !jHasKey period "From" then
              [s!"Education[{index}].Period must have a \x27From\x27 date"]
            else []
          | some _ => []
          | none => [])
  | _ => []

/-- `SchemaValidator.validate_json`: collects all errors, then reports
`is_valid = (errors == [])`. -/
def validateJson (data : JObj) : Bool × List String :=
  let errors :=
    (if !jHasKey data "DocumentInfo" then ["Missing required field: DocumentInfo"]
     else [])
      ++ (match jLookup data "LearnerInfo" with
          | none => ["Missing required field: LearnerInfo"]
          | some (JValue.obj learner_info) =>
            (match jLookup learner_info "Identification" with
             | some idv => validateIdentification idv
             | none => [])
              ++ (match jLookup learner_info "WorkExperience" with
                  | some (JValue.arr xs) =>
                    ((xs.enum.map (fun p => validateWorkExperience p.2 p.1)).flatten)
                  | _ => [])
              ++ (match jLookup learner_info "Education" with
                  | some (JValue.arr xs) =>
                    ((xs.enum.map (fun p => validateEducation p.2 p.1)).flatten)
                  | _ => [])
          | some _ => [])
  (errors.isEmpty, errors)

end SchemaValidator

/-! ## Lookup lemmas -/

@[simp] theorem jLookup_nil (k : String) : jLookup [] k = none := rfl

@[simp] theorem jLookup_cons (k1 : String) (v : JValue) (rest : JObj) (k : String) :
    jLookup ((k1, v) :: rest) k = if k1 = k then some v else jLookup rest k := rfl

@[simp] theorem jLookup_append (l1 l2 : JObj) (k : String) :
    jLookup (l1 ++ l2) k = ((jLookup l1 k).map some).getD (jLookup l2 k) := by
  induction l1 with
  | nil => simp
  | cons hd tl ih =>
    obtain ⟨k1, v⟩ := hd
    by_cases h : k1 = k <;> simp [jLookup, h, ih]

@[simp] theorem jLookup_optEntry (c : Bool) (k1 : String) (v : JValue) (k : String) :
    jLookup (optEntry c k1 v) k =
      if c then (if k1 = k then some v else none) else none := by
  unfold optEntry
  by_cases h : c <;> simp [h]

/-! ## Mapper output vs. validator: supporting lemmas -/

/-- Indexed validation of a list of mapped entries collects no errors when
each entry validates cleanly at every index. -/
theorem flatten_enumFrom_nil (f : Nat → JValue → List String)
    (xs : List JValue) (n : Nat) (h : ∀ i x, x ∈ xs → f i x = []) :
    ((List.enumFrom n xs).map (fun p => f p.1 p.2)).flatten = [] := by
  induction xs generalizing n with
  | nil => simp
  | cons x xs ih =>
    simp only [List.enumFrom, List.map_cons, List.flatten_cons,
      h n x (by simp), List.nil_append]
    exact ih (n + 1) (fun i y hy => h i y (List.mem_cons_of_mem x hy))

/-- A mapped work experience with a start date has `Period.From`, so the
validator accepts it. -/
theorem validateWorkExperience_map (exp : WorkExperience) (i : Nat)
    (h : exp.start_date.isSome) :
    SchemaValidator.validateWorkExperience
      (JValue.obj (EuropassMapper.mapWorkExperience exp)) i = [] := by
  obtain ⟨d, hd⟩ := Option.isSome_iff_exists.mp h
  simp [SchemaValidator.validateWorkExperience, EuropassMapper.mapWorkExperience,
    hd, jHasKey]

/-- A mapped education entry with a start date and a title (or a
description, whose first line becomes the title) validates cleanly. -/
theorem validateEducation_map (edu : Education) (i : Nat)
    (hs : edu.start_date.isSome)
    (ht : optTruthy edu.title || optTruthy edu.description) :
    SchemaValidator.validateEducation
      (JValue.obj (EuropassMapper.mapEducation edu)) i = [] := by
  obtain ⟨d, hd⟩ := Option.isSome_iff_exists.mp hs
  by_cases h1 : optTruthy edu.title
  · simp [SchemaValidator.validateEducation, EuropassMapper.mapEducation,
      hd, h1, jHasKey]
  · have h2 : optTruthy edu.description := by
      cases hb : optTruthy edu.description <;> simp_all
    simp [SchemaValidator.validateEducation, EuropassMapper.mapEducation,
      hd, h1, h2, jHasKey]

/-- An identification assembled from the mapper's four guarded entries
validates cleanly whenever the `PersonName` guard implies the name dict has
a `FirstName` or `Surname` key (any `ContactInfo` entry is a mapping). -/
theorem validateIdentification_optEntries
    (c1 c2 c3 c4 : Bool) (pn ci demo photo : JObj)
    (hpn : c1 = true → (jHasKey pn "Surname" || jHasKey pn "FirstName") = true) :
    SchemaValidator.validateIdentification (JValue.obj
      (optEntry c1 "PersonName" (JValue.obj pn)
        ++ optEntry c2 "ContactInfo" (JValue.obj ci)
        ++ optEntry c3 "Demographics" (JValue.obj demo)
        ++ optEntry c4 "Photo" (JValue.obj photo))) = [] := by
  cases c1 <;> cases c2 <;> cases c3 <;> cases c4 <;>
    simp_all [SchemaValidator.validateIdentification, optEntry, jHasKey,
      Option.isSome_iff_ne_none] <;>
    (intro h2; rcases hpn with h3 | h3 <;> simp_all)

/-- The mapper's `person_name` dict has a `FirstName` or `Surname` key when
at least one of the names is non-empty. -/
theorem personNameFields_hasKey (pi : PersonalInfo)
    (h : (optTruthy pi.first_name || optTruthy pi.last_name) = true) :
    (jHasKey (EuropassMapper.personNameFields pi) "Surname"
      || jHasKey (EuropassMapper.personNameFields pi) "FirstName") = true := by
  unfold EuropassMapper.personNameFields
  cases hf : optTruthy pi.first_name <;> cases hl : optTruthy pi.last_name <;>
    simp_all [optEntry, jHasKey]

/-- Whatever identification dict the mapper emits validates cleanly. -/
theorem validateIdentification_map (ip : Bool) (r : Resume) (idf : JObj)
    (hidf : EuropassMapper.mapIdentification ip r = some idf) :
    SchemaValidator.validateIdentification (JValue.obj idf) = [] := by
  unfold EuropassMapper.mapIdentification at hidf
  split at hidf
  · simp at hidf
  · obtain rfl : idf = _ := (Option.some_inj.mp hidf).symm
    unfold EuropassMapper.identificationFields
    exact validateIdentification_optEntries _ _ _ _ _ _ _ _
      (fun h => personNameFields_hasKey r.personal_info h)

/-- Indexed validation over `List.enum` collects no errors when every
entry validates cleanly (specialisation of `flatten_enumFrom_nil`). -/
theorem flatten_enum_nil (f : Nat → JValue → List String)
    (xs : List JValue) (h : ∀ i x, x ∈ xs → f i x = []) :
    ((xs.enum.map (fun p => f p.1 p.2)).flatten) = [] :=
  flatten_enumFrom_nil f xs 0 h

/-- A resume with first and last name and an education entry carrying only
a start date: the mapped education has a `Period.From` but no `Title`. -/
def c1Resume : Resume :=
  { personal_info := { first_name := some "Jan", last_name := some "Jansen" },
    education := [{ start_date := some ⟨2018, 9, 1⟩ }] }

/-- Claim C1, counterexample: this resume satisfies every hypothesis of the
claim (first and last name present; all work-experience and education
entries carry a start date, so every mapped `Period` contains a `From`),
yet validation reports `is_valid = False` with one error, because the
validator also requires `Education[i].Title` and the entry has neither a
title nor a description to synthesise one from. -/
theorem claim_C1_counterexample :
    optTruthy c1Resume.personal_info.first_name = true
    ∧ optTruthy c1Resume.personal_info.last_name = true
    ∧ (∀ e ∈ c1Resume.work_experience, e.start_date.isSome)
    ∧ (∀ e ∈ c1Resume.education, e.start_date.isSome)
    ∧ SchemaValidator.validateJson
        (EuropassCV.toJson
          (EuropassMapper.map true "2026-10-12T00:00:00" c1Resume))
      = (false, ["Education[0] must have a Title"]) := by
  exact ⟨by decide, by decide, by decide, by decide, by decide⟩

set_option maxHeartbeats 1600000 in
/-- `validate_json` on a document assembled the way `EuropassMapper.map`
assembles it: no errors arise once the identification, work-experience and
education parts validate cleanly. -/
theorem validateJson_assembled
    (doc : JObj) (mi : Option JObj) (c2 : Bool) (hl : JValue)
    (wkE : Bool) (wk : List JValue) (edE : Bool) (ed : List JValue)
    (ms : Option JObj) (acE : Bool) (ac : JValue)
    (hmi : ∀ idf, mi = some idf →
      SchemaValidator.validateIdentification (JValue.obj idf) = [])
    (hwk : ((wk.enum.map
      (fun p => SchemaValidator.validateWorkExperience p.2 p.1)).flatten) = [])
    (hed : ((ed.enum.map
      (fun p => SchemaValidator.validateEducation p.2 p.1)).flatten) = []) :
    SchemaValidator.validateJson
      [("DocumentInfo", JValue.obj doc),
       ("LearnerInfo", JValue.obj
         (optObjEntry mi "Identification"
           ++ optEntry c2 "Headline" hl
           ++ optEntry wkE "WorkExperience" (JValue.arr wk)
           ++ optEntry edE "Education" (JValue.arr ed)
           ++ optObjEntry ms "Skills"
           ++ optEntry acE "Achievement" ac))] = (true, []) := by
  cases mi <;> cases ms <;> cases c2 <;> cases wkE <;> cases edE <;> cases acE <;>
    simp_all [SchemaValidator.validateJson, jHasKey, optEntry, optObjEntry,
      -List.flatten_eq_nil_iff]

/-- Claim C1, amended: for every Resume with a (non-empty) first and last
name, whose WorkExperience and Education entries each carry a start date,
and whose Education entries each also carry a title or a description (from
which a title is synthesised), validating the mapped JSON returns
`is_valid = True` with an empty error list. -/
theorem claim_C1_amended (r : Resume) (ip : Bool) (ts : String)
    (_hf : optTruthy r.personal_info.first_name = true)
    (_hl : optTruthy r.personal_info.last_name = true)
    (hw : ∀ e ∈ r.work_experience, e.start_date.isSome)
    (he : ∀ e ∈ r.education, e.start_date.isSome)
    (ht : ∀ e ∈ r.education,
      (optTruthy e.title || optTruthy e.description) = true) :
    SchemaValidator.validateJson
      (EuropassCV.toJson (EuropassMapper.map ip ts r)) = (true, []) := by
  have hwflat :
      (((r.work_experience.map
          (fun exp => JValue.obj (EuropassMapper.mapWorkExperience exp))).enum.map
        (fun p => SchemaValidator.validateWorkExperience p.2 p.1)).flatten) = [] := by
    refine flatten_enum_nil (fun i x => SchemaValidator.validateWorkExperience x i) _
      (fun i x hx => ?_)
    obtain ⟨exp, hexp, rfl⟩ := List.mem_map.mp hx
    exact validateWorkExperience_map exp i (hw exp hexp)
  have heflat :
      (((r.education.map
          (fun edu => JValue.obj (EuropassMapper.mapEducation edu))).enum.map
        (fun p => SchemaValidator.validateEducation p.2 p.1)).flatten) = [] := by
    refine flatten_enum_nil (fun i x => SchemaValidator.validateEducation x i) _
      (fun i x hx => ?_)
    obtain ⟨edu, hedu, rfl⟩ := List.mem_map.mp hx
    exact validateEducation_map edu i (he edu hedu) (ht edu hedu)
  have hkey : EuropassCV.toJson (EuropassMapper.map ip ts r)
      = [("DocumentInfo", JValue.obj (EuropassMapper.documentInfoFields ts)),
         ("LearnerInfo", JValue.obj (EuropassMapper.learnerInfoFields ip r))] := rfl
  rw [hkey]
  unfold EuropassMapper.learnerInfoFields EuropassMapper.identificationPart
    EuropassMapper.headlinePart EuropassMapper.workPart EuropassMapper.educationPart
    EuropassMapper.skillsPart EuropassMapper.achievementPart
  exact validateJson_assembled _ (EuropassMapper.mapIdentification ip r) _ _ _ _ _ _
    (EuropassMapper.mapSkills r) _ _ (validateIdentification_map ip r) hwflat heflat

/-- A concrete resume satisfying the amended hypotheses of claim C1. -/
def c1wResume : Resume :=
  { personal_info := { first_name := some "Jan", last_name := some "Jansen" },
    work_experience :=
      [{ position := some "Developer", employer := some "Acme",
         start_date := some ⟨2020, 1, 1⟩ }],
    education := [{ title := some "BSc Informatica",
                    start_date := some ⟨2015, 9, 1⟩ }] }

/-- Claim C1, witness: the amended theorem applied to `c1wResume`. -/
theorem claim_C1_witness :
    SchemaValidator.validateJson
      (EuropassCV.toJson
        (EuropassMapper.map true "2026-10-12T00:00:00" c1wResume)) = (true, []) :=
  claim_C1_amended c1wResume true "2026-10-12T00:00:00"
    (by decide) (by decide) (by decide) (by decide) (by decide)

/-- Replace a resume's photo field, leaving everything else unchanged. -/
def setPhoto (r : Resume) (b : Option (List Nat)) : Resume :=
  { r with personal_info := { r.personal_info with photo := b } }

/-- Claim C2: with `include_photo = False`, for a resume carrying non-null
photo bytes the mapped Identification has no `Photo` key, and the output of
`map` (timestamp passed as an argument) does not depend on the photo bytes
at all. -/
theorem claim_C2 (r : Resume) (ts : String) (b1 b2 : Option (List Nat))
    (idf : JObj) (_hp : r.personal_info.photo ≠ none)
    (hidf : EuropassMapper.mapIdentification false r = some idf) :
    jHasKey idf "Photo" = false
    ∧ EuropassMapper.map false ts (setPhoto r b1)
      = EuropassMapper.map false ts (setPhoto r b2) := by
  constructor
  · unfold EuropassMapper.mapIdentification at hidf
    split at hidf
    · simp at hidf
    · obtain rfl : idf = _ := (Option.some_inj.mp hidf).symm
      simp [EuropassMapper.identificationFields, jHasKey]
  · rfl

/-- A concrete resume with photo bytes, for the claim C2 witness. -/
def c2Resume : Resume :=
  { personal_info :=
      { first_name := some "Jan"
        last_name := some "Jansen"
        photo := some [255, 216, 255] } }

/-- Claim C2, witness: the theorem applied to `c2Resume` with two distinct
photo byte strings. -/
theorem claim_C2_witness :
    jHasKey [("PersonName",
        JValue.obj [("FirstName", JValue.str "Jan"),
          ("Surname", JValue.str "Jansen")])] "Photo" = false
    ∧ EuropassMapper.map false "t" (setPhoto c2Resume (some [1]))
      = EuropassMapper.map false "t" (setPhoto c2Resume (some [2])) :=
  claim_C2 c2Resume "t" (some [1]) (some [2]) _ (by decide) rfl

/-! ## Section splitter (`GenericPDFExtractor._split_into_sections`)

The per-section regex is `(?im)^[ \t]*(kw1|kw2|...)[ \t]*$`: a match sits
at a line start, consists of optional spaces/tabs, one keyword (leftmost
alternative that lets the rest of the pattern succeed), optional
spaces/tabs, and ends at a line end.  `re.finditer`'s first match is the
leftmost position where this succeeds. -/

namespace GenericPDFExtractor

/-- `GenericPDFExtractor.SECTION_HEADERS`. -/
def SECTION_HEADERS : List (String × List String) :=
  [("work", ["work experience", "experience", "employment", "ervaring",
             "werkervaring", "professional experience"]),
   ("education", ["education", "academic", "opleiding", "onderwijs", "studies"]),
   ("skills", ["skills", "competencies", "vaardigheden", "competenties",
               "expertise"]),
   ("languages", ["languages", "talen", "language skills"]),
   ("certifications", ["certifications", "certificates", "certificaten",
                       "licenses"]),
   ("summary", ["summary", "profile", "about", "samenvatting", "profiel"])]

/-- The key renaming applied while building `section_patterns`
(work becomes experience, certifications becomes certification,
languages becomes language). -/
def sectionKeyRename (k : String) : String :=
  if k = "work" then "experience"
  else if k = "certifications" then "certification"
  else if k = "languages" then "language"
  else k

/-- `section_patterns`, in the insertion order of `SECTION_HEADERS`. -/
def sectionPatterns : List (String × List String) :=
  SECTION_HEADERS.map (fun p => (sectionKeyRename p.1, p.2))

/-- Space or tab (the `[ \t]` class of the header pattern). -/
def isST (c : Char) : Bool := c = ' ' || c = '\t'

/-- Length of the leading `[ \t]*` run. -/
def skipSTCount : List Char → Nat
  | [] => 0
  | c :: cs => if isST c then skipSTCount cs + 1 else 0

/-- Match `[ \t]*$` at the head: the consumed space/tab count if the line
(or string) ends right after, else `none`. -/
def tailSpacesLen : List Char → Option Nat
  | [] => some 0
  | c :: cs =>
    if isST c then (tailSpacesLen cs).map (· + 1)
    else if c = '\n' then some 0 else none

/-- The keyword alternation followed by `[ \t]*$`, alternatives tried in
order with backtracking (an alternative whose tail fails cedes to the
next).  Returns the matched length from the keyword on. -/
def altMatch (kws : List String) (rest : List Char) : Option Nat :=
  match kws with
  | [] => none
  | kw :: more =>
    if litAtCI kw.toList rest then
      match tailSpacesLen (rest.drop kw.toList.length) with
      | some t => some (kw.toList.length + t)
      | none => altMatch more rest
    else altMatch more rest

/-- `[ \t]*(kw1|...|kwN)[ \t]*$` at the head of `rest`: the full matched
length (the regex group 0, newline excluded). -/
def headerLineAt (kws : List String) (rest : List Char) : Option Nat :=
  (altMatch kws (rest.drop (skipSTCount rest))).map (skipSTCount rest + ·)

/-- A header match of the section pattern at offset `p` of `s`: requires
the multiline `^` (offset 0 or just after a newline), then the header
line shape.  Returns the matched length. -/
def headerMatchAt (kws : List String) (s : List Char) (p : Nat) : Option Nat :=
  if p = 0 || s.getD (p - 1) ' ' = '\n' then headerLineAt kws (s.drop p)
  else none

/-- Leftmost `f`-success at or after `start`, scanning `fuel` positions. -/
def scanFirst (f : Nat → Option Nat) : Nat → Nat → Option (Nat × Nat)
  | _, 0 => none
  | start, fuel + 1 =>
    match f start with
    | some a => some (start, a)
    | none => scanFirst f (start + 1) fuel

/-- `re.finditer(pattern, text)`'s first match for one section pattern:
start offset and matched length. -/
def findFirstHeader (kws : List String) (s : List Char) : Option (Nat × Nat) :=
  scanFirst (headerMatchAt kws s) 0 (s.length + 1)

/-- The unsorted `section_positions` list: `(start, key, matched length)`
for the first match of each section pattern that matches at all. -/
def sectionPositionsRaw (s : List Char) : List (Nat × String × Nat) :=
  sectionPatterns.filterMap
    (fun p => (findFirstHeader p.2 s).map (fun q => (q.1, p.1, q.2)))

/-- Python string comparison on the tie-breaking key (code points). -/
def charListLE : List Char → List Char → Bool
  | [], _ => true
  | _ :: _, [] => false
  | c :: cs, d :: ds =>
    if c.toNat < d.toNat then true
    else if d.toNat < c.toNat then false
    else charListLE cs ds

/-- The sort order of `section_positions.sort()`: by start offset, ties by
key (Python tuple comparison; matched-length ties cannot be reached since
distinct sections never match at the same start). -/
def posLE (a b : Nat × String × Nat) : Bool :=
  if a.1 < b.1 then true
  else if b.1 < a.1 then false
  else charListLE a.2.1.toList b.2.1.toList

/-- Insert into a `posLE`-sorted list. -/
def insertSorted (x : Nat × String × Nat) :
    List (Nat × String × Nat) → List (Nat × String × Nat)
  | [] => [x]
  | y :: ys => if posLE x y then x :: y :: ys else y :: insertSorted x ys

/-- `section_positions.sort()` (insertion sort; `posLE` is total, and no
two found positions are equal, so the sorted list is the Python one). -/
def sortPositions : List (Nat × String × Nat) → List (Nat × String × Nat)
  | [] => []
  | x :: xs => insertSorted x (sortPositions xs)

/-- The sorted `section_positions`. -/
def sectionPositions (s : List Char) : List (Nat × String × Nat) :=
  sortPositions (sectionPositionsRaw s)

/-- The sidebar categories skipped when closing the experience section. -/
def sidebar_sections : List String := ["language", "certification", "contact"]

/-- First start offset at or after the given tail of `section_positions`
whose key is not a sidebar key; `dflt` (the text length) if none. -/
def findNonSidebarFrom : List (Nat × String × Nat) → Nat → Nat
  | [], dflt => dflt
  | (p, key, _) :: rest, dflt =>
    if sidebar_sections.contains key then findNonSidebarFrom rest dflt else p

/-- End offset of the `i`-th section: the next section's start, except for
the experience section, which skips sidebar sections; text length when
nothing follows. -/
def sectionEnd (positions : List (Nat × String × Nat)) (i : Nat)
    (textLen : Nat) : Nat :=
  if i + 1 < positions.length then
    if (positions.getD i (0, "", 0)).2.1 = "experience" then
      findNonSidebarFrom (positions.drop (i + 1)) textLen
    else (positions.getD (i + 1) (0, "", 0)).1
  else textLen

/-- Strip the matched header text from the front of a captured section
(`re.sub(f"^{re.escape(header)}", "", content, flags=re.IGNORECASE)`). -/
def removeHeaderCI (header content : List Char) : List Char :=
  if litAtCI header content then content.drop header.length else content

/-- The content stored for the `i`-th found section. -/
def sectionContent (s : List Char) (positions : List (Nat × String × Nat))
    (i : Nat) : String :=
  let start := (positions.getD i (0, "", 0)).1
  let mlen := (positions.getD i (0, "", 0)).2.2
  let content := pstripList (pySlice s start (sectionEnd positions i s.length))
  let header := pySlice s start (start + mlen)
  String.mk (pstripList (removeHeaderCI header content))

/-- `GenericPDFExtractor._split_into_sections`, as the association list of
`(canonical key, content)` in sorted-position order (the Python dict,
whose keys are unique). -/
def splitIntoSections (text : String) : List (String × String) :=
  let s := text.toList
  let positions := sectionPositions s
  (List.range positions.length).map
    (fun i => ((positions.getD i (0, "", 0)).2.1, sectionContent s positions i))

end GenericPDFExtractor

/-! ## Section splitter: boundary and anchoring lemmas -/

open GenericPDFExtractor in
/-- `findNonSidebarFrom` returns the start of the first entry whose key is
not a sidebar key. -/
theorem findNonSidebarFrom_spec (l : List (Nat × String × Nat)) (dflt : Nat)
    (j : Nat) (hj : j < l.length)
    (hmid : ∀ m < j, sidebar_sections.contains ((l.getD m (0, "", 0)).2.1) = true)
    (hjn : sidebar_sections.contains ((l.getD j (0, "", 0)).2.1) = false) :
    findNonSidebarFrom l dflt = (l.getD j (0, "", 0)).1 := by
  induction l generalizing j with
  | nil => simp at hj
  | cons x rest ih =>
    obtain ⟨p, key, mlen⟩ := x
    cases j with
    | zero =>
      simp only [List.getD_cons_zero] at hjn
      unfold findNonSidebarFrom
      rw [hjn]
      simp
    | succ m =>
      have hx : sidebar_sections.contains key = true := by
        have := hmid 0 (Nat.succ_pos m)
        simpa using this
      simp only [findNonSidebarFrom, hx, if_pos]
      have := ih m (by simpa using hj)
        (fun k hk => by simpa using hmid (k + 1) (Nat.succ_lt_succ hk))
        (by simpa using hjn)
      simpa using this

open GenericPDFExtractor in
/-- `scanFirst` returns the leftmost success of `f`. -/
theorem scanFirst_spec (f : Nat → Option Nat) (fuel start p a : Nat)
    (h : scanFirst f start fuel = some (p, a)) :
    f p = some a ∧ start ≤ p ∧ ∀ q, start ≤ q → q < p → f q = none := by
  induction fuel generalizing start with
  | zero => simp [scanFirst] at h
  | succ fuel ih =>
    rw [scanFirst] at h
    cases hf : f start with
    | some b =>
      rw [hf] at h
      obtain ⟨rfl, rfl⟩ : start = p ∧ b = a := by
        constructor <;> [exact (Prod.mk.injEq .. ▸ Option.some_inj.mp h).1;
          exact (Prod.mk.injEq .. ▸ Option.some_inj.mp h).2]
      exact ⟨hf, Nat.le_refl _, fun q h1 h2 => absurd (Nat.lt_of_le_of_lt h1 h2)
        (Nat.lt_irrefl _)⟩
    | none =>
      rw [hf] at h
      obtain ⟨h1, h2, h3⟩ := ih (start + 1) h
      refine ⟨h1, Nat.le_of_succ_le h2, fun q hq1 hq2 => ?_⟩
      rcases Nat.eq_or_lt_of_le hq1 with rfl | hlt
      · exact hf
      · exact h3 q hlt hq2

open GenericPDFExtractor in
/-- After the space/tab count consumed by `[ \t]*$`, the input is at a
line end (end of string or a newline). -/
theorem tailSpacesLen_end (rest : List Char) (t : Nat)
    (h : tailSpacesLen rest = some t) :
    rest.drop t = [] ∨ (rest.drop t).head? = some '\n' := by
  induction rest generalizing t with
  | nil => simp [tailSpacesLen] at h; simp [h]
  | cons c cs ih =>
    rw [tailSpacesLen] at h
    by_cases hst : isST c
    · rw [if_pos hst] at h
      cases ht : tailSpacesLen cs with
      | none => rw [ht] at h; simp at h
      | some t2 =>
        rw [ht] at h; simp at h
        subst h
        simpa using ih t2 ht
    · rw [if_neg hst] at h
      by_cases hnl : c = '\n'
      · rw [if_pos hnl] at h
        obtain rfl : t = 0 := by simpa using h.symm
        simp [hnl]
      · rw [if_neg hnl] at h; simp at h

open GenericPDFExtractor in
/-- A successful keyword alternation match ends at a line end. -/
theorem altMatch_end (kws : List String) (rest : List Char) (len : Nat)
    (h : altMatch kws rest = some len) :
    rest.drop len = [] ∨ (rest.drop len).head? = some '\n' := by
  induction kws with
  | nil => simp [altMatch] at h
  | cons kw more ih =>
    rw [altMatch] at h
    by_cases hlit : litAtCI kw.toList rest
    · rw [if_pos hlit] at h
      cases ht : tailSpacesLen (rest.drop kw.toList.length) with
      | none => rw [ht] at h; exact ih h
      | some t =>
        rw [ht] at h
        obtain rfl : kw.toList.length + t = len := by simpa using h
        have := tailSpacesLen_end _ _ ht
        rwa [List.drop_drop] at this
    · rw [if_neg hlit] at h
      exact ih h

open GenericPDFExtractor in
/-- A successful header-line match ends at a line end. -/
theorem headerLineAt_end (kws : List String) (rest : List Char) (len : Nat)
    (h : headerLineAt kws rest = some len) :
    rest.drop len = [] ∨ (rest.drop len).head? = some '\n' := by
  unfold headerLineAt at h
  cases ha : altMatch kws (rest.drop (skipSTCount rest)) with
  | none => rw [ha] at h; simp at h
  | some l2 =>
    rw [ha] at h
    obtain rfl : skipSTCount rest + l2 = len := by simpa using h
    have := altMatch_end _ _ _ ha
    rwa [List.drop_drop] at this

open GenericPDFExtractor in
/-- A header match is anchored: it starts at a line start and ends at a
line end. -/
theorem headerMatchAt_anchored (kws : List String) (s : List Char)
    (p len : Nat) (h : headerMatchAt kws s p = some len) :
    (p = 0 ∨ s.getD (p - 1) ' ' = '\n')
      ∧ (s.drop (p + len) = [] ∨ (s.drop (p + len)).head? = some '\n') := by
  unfold headerMatchAt at h
  by_cases hls : (p = 0 || s.getD (p - 1) ' ' = '\n') = true
  · rw [if_pos hls] at h
    refine ⟨by simpa using hls, ?_⟩
    have := headerLineAt_end _ _ _ h
    rwa [List.drop_drop] at this
  · rw [if_neg hls] at h; simp at h

/-- Claim C3: section end boundaries.  For a non-experience section the
content window ends at the next found header's start; for the experience
section it ends at the start of the first following non-sidebar entry
(the hypotheses index the positions after `i` by `positions.drop (i+1)`).
Concretely, on text with headers `ERVARING`, `TALEN`, `OPLEIDING`, the
experience window ends at the `OPLEIDING` header (offset 45), past the
`TALEN` header's start (offset 28), and the captured experience text
contains the whole `TALEN` sidebar block. -/
theorem claim_C3 :
    (∀ (positions : List (Nat × String × Nat)) (i textLen : Nat),
      i + 1 < positions.length →
      (positions.getD i (0, "", 0)).2.1 ≠ "experience" →
      GenericPDFExtractor.sectionEnd positions i textLen
        = (positions.getD (i + 1) (0, "", 0)).1)
    ∧ (∀ (positions : List (Nat × String × Nat)) (i textLen j : Nat),
      i + 1 < positions.length →
      (positions.getD i (0, "", 0)).2.1 = "experience" →
      j < (positions.drop (i + 1)).length →
      (∀ m < j, GenericPDFExtractor.sidebar_sections.contains
        (((positions.drop (i + 1)).getD m (0, "", 0)).2.1) = true) →
      GenericPDFExtractor.sidebar_sections.contains
        (((positions.drop (i + 1)).getD j (0, "", 0)).2.1) = false →
      GenericPDFExtractor.sectionEnd positions i textLen
        = ((positions.drop (i + 1)).getD j (0, "", 0)).1)
    ∧ GenericPDFExtractor.sectionPositions
        ("ERVARING\nwerk bij Bedrijf A\nTALEN\nNederlands\nOPLEIDING\nHBO Informatica".toList)
      = [(0, "experience", 8), (28, "language", 5), (45, "education", 9)]
    ∧ GenericPDFExtractor.sectionEnd
        (GenericPDFExtractor.sectionPositions
          ("ERVARING\nwerk bij Bedrijf A\nTALEN\nNederlands\nOPLEIDING\nHBO Informatica".toList))
        0 70 = 45
    ∧ List.lookup "experience"
        (GenericPDFExtractor.splitIntoSections
          "ERVARING\nwerk bij Bedrijf A\nTALEN\nNederlands\nOPLEIDING\nHBO Informatica")
      = some "werk bij Bedrijf A\nTALEN\nNederlands" := by
  refine ⟨?_, ?_, by decide, by decide, by decide⟩
  · intro positions i textLen h1 h2
    unfold GenericPDFExtractor.sectionEnd
    rw [if_pos h1, if_neg h2]
  · intro positions i textLen j h1 h2 hj hmid hjn
    unfold GenericPDFExtractor.sectionEnd
    rw [if_pos h1, if_pos h2]
    exact findNonSidebarFrom_spec _ _ j hj hmid hjn

/-- Claim C3, witness: the boundary clauses applied to the concrete
position list of the `ERVARING`/`TALEN`/`OPLEIDING` text. -/
theorem claim_C3_witness :
    GenericPDFExtractor.sectionEnd
      [(0, "experience", 8), (28, "language", 5), (45, "education", 9)] 1 70 = 45
    ∧ GenericPDFExtractor.sectionEnd
      [(0, "experience", 8), (28, "language", 5), (45, "education", 9)] 0 70 = 45 :=
  ⟨claim_C3.1 [(0, "experience", 8), (28, "language", 5), (45, "education", 9)]
      1 70 (by decide) (by decide),
   claim_C3.2.1 [(0, "experience", 8), (28, "language", 5), (45, "education", 9)]
      0 70 1 (by decide) (by decide) (by decide)
      (by intro m hm; interval_cases m; decide) (by decide)⟩

/-- Claim C4, counterexample: the header pattern is
`^[ \t]*(kw...)[ \t]*$` — no colon is allowed after the keyword.  The
claim's "optionally followed by a colon" fails: `skills:` on its own line
is not recognized (no skills section results), while the same line
without the colon is. -/
theorem claim_C4_counterexample :
    List.lookup "skills"
      (GenericPDFExtractor.splitIntoSections "skills:\nPython en Java") = none
    ∧ List.lookup "skills"
      (GenericPDFExtractor.splitIntoSections "skills\nPython en Java")
      = some "Python en Java" := by
  exact ⟨by decide, by decide⟩

/-- Claim C4, amended: a keyword occurrence starts a section exactly when
it occupies its own line — anchored to line boundaries, optionally
surrounded by spaces/tabs, with no trailing colon allowed.  The found
header is the leftmost anchored match (so scanning is first-occurrence
only), every match is line-anchored on both sides, a keyword inside prose
never starts a section, and a repeated header does not re-split its
section. -/
theorem claim_C4_amended :
    (∀ (kws : List String) (s : List Char) (p len : Nat),
      GenericPDFExtractor.findFirstHeader kws s = some (p, len) →
      GenericPDFExtractor.headerMatchAt kws s p = some len
        ∧ ∀ q < p, GenericPDFExtractor.headerMatchAt kws s q = none)
    ∧ (∀ (kws : List String) (s : List Char) (p len : Nat),
      GenericPDFExtractor.headerMatchAt kws s p = some len →
      (p = 0 ∨ s.getD (p - 1) ' ' = '\n')
        ∧ (s.drop (p + len) = [] ∨ (s.drop (p + len)).head? = some '\n'))
    ∧ List.lookup "skills"
      (GenericPDFExtractor.splitIntoSections "I have many skills to offer\nPython")
      = none
    ∧ GenericPDFExtractor.splitIntoSections "skills\nA\nskills\nB"
      = [("skills", "A\nskills\nB")] := by
  refine ⟨?_, ?_, by decide, by decide⟩
  · intro kws s p len h
    obtain ⟨h1, _, h3⟩ := scanFirst_spec _ _ _ _ _ h
    exact ⟨h1, fun q hq => h3 q (Nat.zero_le q) hq⟩
  · intro kws s p len h
    exact headerMatchAt_anchored kws s p len h

/-- Claim C4, witness: the anchoring clauses applied to the first header
match of a concrete text with a decoy prose occurrence of `skills`. -/
theorem claim_C4_witness :
    GenericPDFExtractor.headerMatchAt ["skills"]
        ("my skills rock\nskills\nPython".toList) 15 = some 6
    ∧ (∀ q < 15, GenericPDFExtractor.headerMatchAt ["skills"]
        ("my skills rock\nskills\nPython".toList) q = none)
    ∧ ((15 : Nat) = 0
        ∨ ("my skills rock\nskills\nPython".toList).getD (15 - 1) ' ' = '\n')
    ∧ (("my skills rock\nskills\nPython".toList).drop (15 + 6) = []
        ∨ (("my skills rock\nskills\nPython".toList).drop (15 + 6)).head?
          = some '\n') :=
  have h := claim_C4_amended.1 ["skills"] ("my skills rock\nskills\nPython".toList)
    15 6 (by decide)
  ⟨h.1, h.2,
   (claim_C4_amended.2.1 ["skills"] ("my skills rock\nskills\nPython".toList)
     15 6 h.1).1,
   (claim_C4_amended.2.1 ["skills"] ("my skills rock\nskills\nPython".toList)
     15 6 h.1).2⟩

/-! ## Language extraction

`GenericPDFExtractor._extract_languages` and
`DOCXExtractor._extract_languages`.  `re.search(rf"\b{lang}\b", text,
re.IGNORECASE)` is `containsWordCI`; `text.lower().find(lang.lower())` is
`findSubCI` (note: the regex is word-bounded, the `find` is not — both are
modelled as the source has them). -/

/-- First match of `\b([A-C][1-2])\b` (case-sensitive) at offset `p`. -/
def cefrOccurAt (s : List Char) (p : Nat) : Option String :=
  match s.drop p with
  | c :: d :: _ =>
    if (c = 'A' || c = 'B' || c = 'C') && (d = '1' || d = '2')
        && (p = 0 || !isWordChar (s.getD (p - 1) ' '))
        && (p + 2 ≥ s.length || !isWordChar (s.getD (p + 2) ' ')) then
      some (String.mk [c, d])
    else none
  | _ => none

/-- Scan `s` left to right for the first CEFR token. -/
def findCefrFrom (s : List Char) : List Char → Nat → Option String
  | [], p => cefrOccurAt s p
  | _ :: cs, p =>
    match cefrOccurAt s p with
    | some r => some r
    | none => findCefrFrom s cs (p + 1)

/-- `re.search(r"\b([A-C][1-2])\b", context)`: the leftmost CEFR token. -/
def findCefr (s : List Char) : Option String := findCefrFrom s s 0

namespace GenericPDFExtractor

/-- The `language_names` roster of `_extract_languages` (note the trailing
`"Nederlands"`, with no normalization anywhere in this extractor). -/
def language_names : List String :=
  ["English", "Dutch", "German", "French", "Spanish", "Italian",
   "Portuguese", "Chinese", "Japanese", "Russian", "Arabic", "Nederlands"]

/-- The `native_keywords` list of `_extract_languages`. -/
def native_keywords : List String :=
  ["native", "moedertaal", "mother tongue", "bilingual", "tweetalig"]

/-- The `proficiency_levels` keyword-to-CEFR table, in insertion order. -/
def proficiency_levels : List (String × String) :=
  [("native", "C2"), ("moedertaal", "C2"), ("mother tongue", "C2"),
   ("bilingual", "C2"), ("tweetalig", "C2"),
   ("fluent", "C2"), ("vloeiend", "C2"), ("excellent", "C2"),
   ("uitstekend", "C2"),
   ("advanced", "C1"), ("gevorderd", "C1"), ("proficient", "C1"),
   ("intermediate", "B1"), ("good", "B1"), ("goed", "B1"),
   ("conversational", "B1"),
   ("basic", "A2"), ("elementary", "A2"), ("beginner", "A1"),
   ("limited", "A2"), ("beperkt", "A2")]

/-- First table entry whose keyword occurs word-bounded (the `break`ing
`for` loop over `proficiency_levels.items()`). -/
def firstProfWord : List (String × String) → List Char → Option (String × String)
  | [], _ => none
  | (kw, lvl) :: rest, ctx =>
    if containsWordCI kw.toList ctx then some (kw, lvl)
    else firstProfWord rest ctx

/-- The `Language` record built for one roster name found in the text
(the body of the `for lang in language_names` loop). -/
def buildLanguage (text : List Char) (lang : String) : Language :=
  match findSubCI lang.toList text with
  | none => { language := lang }
  | some lang_pos =>
    if native_keywords.any
        (fun kw => containsWordCI kw.toList
          (pySlice text (lang_pos - 100) (lang_pos + 150))) then
      { language := lang, listening := some "C2", reading := some "C2",
        speaking := some "C2", writing := some "C2", is_native := true }
    else
      match findCefr (pySlice text (lang_pos - 100) (lang_pos + 150)) with
      | some level =>
        { language := lang, listening := some level, reading := some level,
          speaking := some level, writing := some level }
      | none =>
        match firstProfWord proficiency_levels
          (pySlice text (lang_pos - 50) (lang_pos + 50)) with
        | some (kw, lvl) =>
          { language := lang, listening := some lvl, reading := some lvl,
            speaking := some lvl, writing := some lvl,
            is_native := native_keywords.contains kw }
        | none =>
          { language := lang, listening := some "B1", reading := some "B1",
            speaking := some "B1", writing := some "B1" }

/-- `GenericPDFExtractor._extract_languages`. -/
def extractLanguages (text : String) : List Language :=
  (language_names.filter
    (fun lang => containsWordCI lang.toList text.toList)).map
    (buildLanguage text.toList)

end GenericPDFExtractor

namespace DOCXExtractor

/-- The `language_names` roster of `DOCXExtractor._extract_languages`
(English names interleaved with Dutch ones). -/
def language_names : List String :=
  ["English", "Engels", "Dutch", "Nederlands", "German", "Duits",
   "French", "Frans", "Spanish", "Spaans", "Italian", "Italiaans",
   "Portuguese", "Chinese", "Japanese", "Russian", "Arabic"]

/-- The `language_normalize` Dutch-to-English map. -/
def language_normalize : List (String × String) :=
  [("engels", "English"), ("nederlands", "Dutch"), ("duits", "German"),
   ("frans", "French"), ("spaans", "Spanish"), ("italiaans", "Italian")]

/-- `language_normalize.get(lang.lower(), lang)`. -/
def langNormalized (lang : String) : String :=
  (language_normalize.lookup (plower lang)).getD lang

/-- The `proficiency_map` of the DOCX extractor, in insertion order. -/
def proficiency_map : List (String × String) :=
  [("native", "C2"), ("moedertaal", "C2"), ("mother tongue", "C2"),
   ("bilingual", "C2"), ("fluent", "C2"), ("vloeiend", "C2"),
   ("zeer goed", "C1"), ("goed", "B2"), ("redelijk", "B1"),
   ("basic", "A2"), ("elementary", "A1")]

/-- The DOCX native-keyword list (checked by plain substring). -/
def native_keywords : List String := ["native", "moedertaal", "mother tongue"]

/-- First table entry whose keyword occurs as a substring of the
lowercased context (the `break`ing loop over `proficiency_map.items()`). -/
def firstProfSub : List (String × String) → List Char → Option (String × String)
  | [], _ => none
  | (kw, lvl) :: rest, ctx =>
    if containsSubCI kw.toList ctx then some (kw, lvl)
    else firstProfSub rest ctx

/-- The `Language` record built for one roster name found in DOCX text
(no default level: axes stay unset when nothing matches). -/
def buildLanguage (text : List Char) (lang : String) : Language :=
  match findSubCI lang.toList text with
  | none => { language := langNormalized lang }
  | some lang_pos =>
    if native_keywords.any
        (fun kw => containsSubCI kw.toList
          (pySlice text (lang_pos - 50) (lang_pos + 150))) then
      { language := langNormalized lang, listening := some "C2",
        reading := some "C2", speaking := some "C2", writing := some "C2",
        is_native := true }
    else
      match findCefr (pySlice text (lang_pos - 50) (lang_pos + 150)) with
      | some level =>
        { language := langNormalized lang, listening := some level,
          reading := some level, speaking := some level,
          writing := some level }
      | none =>
        match firstProfSub proficiency_map
          (pySlice text (lang_pos - 50) (lang_pos + 150)) with
        | some (kw, lvl) =>
          { language := langNormalized lang, listening := some lvl,
            reading := some lvl, speaking := some lvl, writing := some lvl,
            is_native := native_keywords.contains kw }
        | none => { language := langNormalized lang }

/-- `DOCXExtractor._extract_languages`. -/
def extractLanguages (text : String) : List Language :=
  (language_names.filter
    (fun lang => containsWordCI lang.toList text.toList)).map
    (buildLanguage text.toList)

end DOCXExtractor

/-! ## Language extraction lemmas and claims C5, C9, C10 -/

/-- A record returned by the generic extractor is built from a roster
name whose word-bounded search succeeded. -/
theorem mem_extractLanguages_generic (text : String) (l : Language)
    (h : l ∈ GenericPDFExtractor.extractLanguages text) :
    ∃ lang, lang ∈ GenericPDFExtractor.language_names
      ∧ containsWordCI lang.toList text.toList = true
      ∧ l = GenericPDFExtractor.buildLanguage text.toList lang := by
  obtain ⟨lang, hmem, rfl⟩ := List.mem_map.mp h
  obtain ⟨h1, h2⟩ := List.mem_filter.mp hmem
  exact ⟨lang, h1, h2, rfl⟩

/-- A record returned by the DOCX extractor is built from a roster name
whose word-bounded search succeeded. -/
theorem mem_extractLanguages_docx (text : String) (l : Language)
    (h : l ∈ DOCXExtractor.extractLanguages text) :
    ∃ lang, lang ∈ DOCXExtractor.language_names
      ∧ containsWordCI lang.toList text.toList = true
      ∧ l = DOCXExtractor.buildLanguage text.toList lang := by
  obtain ⟨lang, hmem, rfl⟩ := List.mem_map.mp h
  obtain ⟨h1, h2⟩ := List.mem_filter.mp hmem
  exact ⟨lang, h1, h2, rfl⟩

/-- The breaking proficiency loop returns an entry of its table
(word-bounded variant). -/
theorem firstProfWord_mem (l : List (String × String)) (ctx : List Char)
    (p : String × String) (h : GenericPDFExtractor.firstProfWord l ctx = some p) :
    p ∈ l := by
  induction l with
  | nil => simp [GenericPDFExtractor.firstProfWord] at h
  | cons x rest ih =>
    obtain ⟨kw, lvl⟩ := x
    rw [GenericPDFExtractor.firstProfWord] at h
    split at h
    · exact (Option.some_inj.mp h) ▸ List.mem_cons_self _ _
    · exact List.mem_cons_of_mem _ (ih h)

/-- The breaking proficiency loop returns an entry of its table
(substring variant). -/
theorem firstProfSub_mem (l : List (String × String)) (ctx : List Char)
    (p : String × String) (h : DOCXExtractor.firstProfSub l ctx = some p) :
    p ∈ l := by
  induction l with
  | nil => simp [DOCXExtractor.firstProfSub] at h
  | cons x rest ih =>
    obtain ⟨kw, lvl⟩ := x
    rw [DOCXExtractor.firstProfSub] at h
    split at h
    · exact (Option.some_inj.mp h) ▸ List.mem_cons_self _ _
    · exact List.mem_cons_of_mem _ (ih h)

/-- In the generic `proficiency_levels` table, every native-flagged
keyword maps to C2. -/
theorem proficiency_native_C2 :
    ∀ p ∈ GenericPDFExtractor.proficiency_levels,
      GenericPDFExtractor.native_keywords.contains p.1 = true →
        p.2 = "C2" := by
  decide

/-- In the DOCX `proficiency_map`, every native-flagged keyword maps
to C2. -/
theorem proficiency_native_C2_docx :
    ∀ p ∈ DOCXExtractor.proficiency_map,
      DOCXExtractor.native_keywords.contains p.1 = true → p.2 = "C2" := by
  decide

/-- A generic-extractor record flagged native carries C2 on all four
axes. -/
theorem buildLanguage_native_C2 (text : List Char) (lang : String)
    (h : (GenericPDFExtractor.buildLanguage text lang).is_native = true) :
    (GenericPDFExtractor.buildLanguage text lang).listening = some "C2"
    ∧ (GenericPDFExtractor.buildLanguage text lang).reading = some "C2"
    ∧ (GenericPDFExtractor.buildLanguage text lang).speaking = some "C2"
    ∧ (GenericPDFExtractor.buildLanguage text lang).writing = some "C2" := by
  unfold GenericPDFExtractor.buildLanguage at h ⊢
  split at h
  · simp at h
  · split at h
    · simp_all
    · split at h
      · simp at h
      · split at h
        · rename_i kw lvl heq
          have hmem := firstProfWord_mem _ _ _ heq
          have hkw : GenericPDFExtractor.native_keywords.contains kw = true := by
            simpa using h
          have := proficiency_native_C2 (kw, lvl) hmem hkw
          subst this
          simp_all
        · simp at h

/-- A DOCX-extractor record flagged native carries C2 on all four axes. -/
theorem buildLanguage_native_C2_docx (text : List Char) (lang : String)
    (h : (DOCXExtractor.buildLanguage text lang).is_native = true) :
    (DOCXExtractor.buildLanguage text lang).listening = some "C2"
    ∧ (DOCXExtractor.buildLanguage text lang).reading = some "C2"
    ∧ (DOCXExtractor.buildLanguage text lang).speaking = some "C2"
    ∧ (DOCXExtractor.buildLanguage text lang).writing = some "C2" := by
  unfold DOCXExtractor.buildLanguage at h ⊢
  split at h
  · simp at h
  · split at h
    · simp_all
    · split at h
      · simp at h
      · split at h
        · rename_i kw lvl heq
          have hmem := firstProfSub_mem _ _ _ heq
          have hkw : DOCXExtractor.native_keywords.contains kw = true := by
            simpa using h
          have := proficiency_native_C2_docx (kw, lvl) hmem hkw
          subst this
          simp_all
        · simp at h

/-- Claim C5: in both the generic PDF extractor and the DOCX extractor,
every extracted Language record with `is_native = true` has all four CEFR
axes equal to C2. -/
theorem claim_C5 :
    (∀ (text : String) (l : Language),
      l ∈ GenericPDFExtractor.extractLanguages text → l.is_native = true →
      l.listening = some "C2" ∧ l.reading = some "C2"
        ∧ l.speaking = some "C2" ∧ l.writing = some "C2")
    ∧ (∀ (text : String) (l : Language),
      l ∈ DOCXExtractor.extractLanguages text → l.is_native = true →
      l.listening = some "C2" ∧ l.reading = some "C2"
        ∧ l.speaking = some "C2" ∧ l.writing = some "C2") := by
  constructor
  · intro text l hmem hn
    obtain ⟨lang, _, _, rfl⟩ := mem_extractLanguages_generic text l hmem
    exact buildLanguage_native_C2 _ _ hn
  · intro text l hmem hn
    obtain ⟨lang, _, _, rfl⟩ := mem_extractLanguages_docx text l hmem
    exact buildLanguage_native_C2_docx _ _ hn

/-- Claim C5, witness: `"Dutch - Native"` produces a native record with
all axes C2 through the theorem. -/
theorem claim_C5_witness :
    ({ language := "Dutch", listening := some "C2", reading := some "C2",
       speaking := some "C2", writing := some "C2",
       is_native := true } : Language).listening = some "C2"
    ∧ ({ language := "Dutch", listening := some "C2", reading := some "C2",
         speaking := some "C2", writing := some "C2",
         is_native := true } : Language).reading = some "C2"
    ∧ ({ language := "Dutch", listening := some "C2", reading := some "C2",
         speaking := some "C2", writing := some "C2",
         is_native := true } : Language).speaking = some "C2"
    ∧ ({ language := "Dutch", listening := some "C2", reading := some "C2",
         speaking := some "C2", writing := some "C2",
         is_native := true } : Language).writing = some "C2" :=
  claim_C5.1 "Dutch - Native"
    { language := "Dutch", listening := some "C2", reading := some "C2",
      speaking := some "C2", writing := some "C2", is_native := true }
    (by decide) (by decide)

/-- The language field of a generic-extractor record is the roster name,
verbatim, in every branch. -/
theorem buildLanguage_language (text : List Char) (lang : String) :
    (GenericPDFExtractor.buildLanguage text lang).language = lang := by
  unfold GenericPDFExtractor.buildLanguage
  split
  · rfl
  · split
    · rfl
    · split
      · rfl
      · split <;> rfl

/-- The language field of a DOCX-extractor record is the normalized
roster name, in every branch. -/
theorem buildLanguage_language_docx (text : List Char) (lang : String) :
    (DOCXExtractor.buildLanguage text lang).language
      = DOCXExtractor.langNormalized lang := by
  unfold DOCXExtractor.buildLanguage
  split
  · rfl
  · split
    · rfl
    · split
      · rfl
      · split <;> rfl

/-- Claim C9, counterexample: the generic PDF extractor has no Dutch-to-
English normalization.  On the input `"Nederlands"` it returns one record
whose language field is the Dutch name `"Nederlands"`, not `"Dutch"`. -/
theorem claim_C9_counterexample :
    (GenericPDFExtractor.extractLanguages "Nederlands").map (·.language)
      = ["Nederlands"] := by
  decide

/-- Every normalized DOCX roster name is an English canonical name. -/
theorem docx_roster_normalizes :
    ∀ lang ∈ DOCXExtractor.language_names,
      DOCXExtractor.langNormalized lang ∈
        ["English", "Dutch", "German", "French", "Spanish", "Italian",
         "Portuguese", "Chinese", "Japanese", "Russian", "Arabic"] := by
  decide

/-- Claim C9, amended: only the DOCX extractor normalizes Dutch language
names to English canonical form (Engels to English, Nederlands to Dutch,
Duits to German, and so on); every record it returns carries an English
name.  The generic PDF extractor performs no normalization: its records
carry the roster name verbatim — its roster contains `"Nederlands"`,
which is returned as-is, and the other Dutch names (Engels, Duits, ...)
are not in its roster at all. -/
theorem claim_C9_amended :
    (∀ (text : String) (l : Language),
      l ∈ DOCXExtractor.extractLanguages text →
      l.language ∈ ["English", "Dutch", "German", "French", "Spanish",
        "Italian", "Portuguese", "Chinese", "Japanese", "Russian", "Arabic"])
    ∧ (∀ (text : String) (l : Language),
      l ∈ GenericPDFExtractor.extractLanguages text →
      l.language ∈ GenericPDFExtractor.language_names)
    ∧ (DOCXExtractor.extractLanguages "Engels B2\nDuits A1").map (·.language)
      = ["English", "German"]
    ∧ (GenericPDFExtractor.extractLanguages "Nederlands - moedertaal").map
        (·.language) = ["Nederlands"] := by
  refine ⟨?_, ?_, by decide, by decide⟩
  · intro text l hmem
    obtain ⟨lang, hin, _, rfl⟩ := mem_extractLanguages_docx text l hmem
    rw [buildLanguage_language_docx]
    exact docx_roster_normalizes lang hin
  · intro text l hmem
    obtain ⟨lang, hin, _, rfl⟩ := mem_extractLanguages_generic text l hmem
    rw [buildLanguage_language]
    exact hin

/-- Claim C9, witness: the amended theorem applied to the DOCX record
extracted from `"Engels B2"`. -/
theorem claim_C9_witness :
    ({ language := "English", listening := some "B2", reading := some "B2",
       speaking := some "B2", writing := some "B2" } : Language).language
      ∈ ["English", "Dutch", "German", "French", "Spanish", "Italian",
         "Portuguese", "Chinese", "Japanese", "Russian", "Arabic"] :=
  claim_C9_amended.1 "Engels B2"
    { language := "English", listening := some "B2", reading := some "B2",
      speaking := some "B2", writing := some "B2" }
    (by decide)

/-- A word-bounded occurrence implies a plain substring occurrence. -/
theorem containsWordFrom_litAt (pat s : List Char) :
    ∀ (rest : List Char) (p : Nat),
      containsWordFrom pat s rest p = true →
      ∃ q, litAtCI pat (s.drop q) = true := by
  intro rest
  induction rest with
  | nil =>
    intro p h
    simp only [containsWordFrom] at h
    exact ⟨p, by
      unfold wordOccurAt at h
      exact (Bool.and_eq_true_iff.mp
        (Bool.and_eq_true_iff.mp h).1).1⟩
  | cons c cs ih =>
    intro p h
    simp only [containsWordFrom] at h
    rcases Bool.or_eq_true_iff.mp h with h1 | h2
    · exact ⟨p, by
        unfold wordOccurAt at h1
        exact (Bool.and_eq_true_iff.mp
          (Bool.and_eq_true_iff.mp h1).1).1⟩
    · exact ih (p + 1) h2

/-- `str.find` succeeds whenever a (case-insensitive) occurrence
exists. -/
theorem findSubCI_isSome (pat : List Char) :
    ∀ (s : List Char), (∃ q, litAtCI pat (s.drop q) = true) →
      (findSubCI pat s).isSome = true := by
  intro s
  induction s with
  | nil =>
    rintro ⟨q, hq⟩
    simp only [List.drop_nil] at hq
    simp [findSubCI, hq]
  | cons c cs ih =>
    rintro ⟨q, hq⟩
    rw [findSubCI]
    by_cases hl : litAtCI pat (c :: cs) = true
    · simp [hl]
    · rw [if_neg hl]
      cases q with
      | zero => exact absurd hq hl
      | succ q2 =>
        simp only [List.drop_succ_cons] at hq
        have := ih ⟨q2, hq⟩
        simpa using this

/-- Claim C10: every record the generic PDF extractor's language
extraction returns has all four CEFR axes set and equal: C2 for native
cues, the found CEFR token, the keyword-mapped level, or the B1 default
when nothing matches near the name. -/
theorem claim_C10 (text : String) (l : Language)
    (hmem : l ∈ GenericPDFExtractor.extractLanguages text) :
    ∃ lvl, l.listening = some lvl ∧ l.reading = some lvl
      ∧ l.speaking = some lvl ∧ l.writing = some lvl := by
  obtain ⟨lang, _, hword, rfl⟩ := mem_extractLanguages_generic text l hmem
  have hfind : (findSubCI lang.toList text.toList).isSome = true :=
    findSubCI_isSome _ _ (containsWordFrom_litAt _ _ _ 0 hword)
  unfold GenericPDFExtractor.buildLanguage
  split
  · rename_i h0
    rw [h0] at hfind
    simp at hfind
  · split
    · exact ⟨"C2", rfl, rfl, rfl, rfl⟩
    · split
      · rename_i level _
        exact ⟨level, rfl, rfl, rfl, rfl⟩
      · split
        · rename_i kw lvl _
          exact ⟨lvl, rfl, rfl, rfl, rfl⟩
        · exact ⟨"B1", rfl, rfl, rfl, rfl⟩

/-- Claim C10, witness: the record extracted from `"German"` (no level
cue anywhere, so the B1 default) through the theorem. -/
theorem claim_C10_witness :
    ∃ lvl,
      ({ language := "German", listening := some "B1", reading := some "B1",
         speaking := some "B1", writing := some "B1" } : Language).listening
        = some lvl
      ∧ ({ language := "German", listening := some "B1", reading := some "B1",
           speaking := some "B1", writing := some "B1" } : Language).reading
        = some lvl
      ∧ ({ language := "German", listening := some "B1", reading := some "B1",
           speaking := some "B1", writing := some "B1" } : Language).speaking
        = some lvl
      ∧ ({ language := "German", listening := some "B1", reading := some "B1",
           speaking := some "B1", writing := some "B1" } : Language).writing
        = some lvl :=
  claim_C10 "German"
    { language := "German", listening := some "B1", reading := some "B1",
      speaking := some "B1", writing := some "B1" }
    (by decide)

/-! ## Skills extraction (`GenericPDFExtractor._extract_skills`) -/

namespace GenericPDFExtractor

/-- The delimiter class `[,•\n·|]`. -/
def isSkillDelim (c : Char) : Bool :=
  c = ',' || c = '•' || c = '\n' || c = '·' || c = '|'

/-- `re.split(r"[,•\n·|]", text)`: split at every delimiter character,
keeping empty pieces. -/
def splitOnDelims : List Char → List (List Char)
  | [] => [[]]
  | c :: cs =>
    if isSkillDelim c then [] :: splitOnDelims cs
    else
      match splitOnDelims cs with
      | [] => [[c]]
      | t :: ts => (c :: t) :: ts

/-- Head of the remaining input is whitespace. -/
def headIsSpace : List Char → Bool
  | [] => false
  | d :: _ => pyIsSpace d

/-- `re.split(r"\s{2,}|\n", text)`: a run of two or more whitespace
characters, or a single newline, separates tokens.  The Boolean flag
records being inside a whitespace run already consumed as a delimiter. -/
def splitWS2Aux : List Char → Bool → List (List Char)
  | [], _ => [[]]
  | c :: cs, inRun =>
    if inRun && pyIsSpace c then splitWS2Aux cs true
    else if pyIsSpace c && headIsSpace cs then [] :: splitWS2Aux cs true
    else if c = '\n' then [] :: splitWS2Aux cs false
    else
      match splitWS2Aux cs false with
      | [] => [[c]]
      | t :: ts => (c :: t) :: ts

/-- The `noise_words` set. -/
def noise_words : List String :=
  ["skills", "experience", "proficient", "knowledge", "familiar", "and",
   "or", "including", "such as", "etc", "years", "page", "vaardigheden",
   "competenties", "expertise", "competencies", "technical", "tools",
   "technologies", "software", "programming", "languages", "talen",
   "strong", "working", "understanding"]

/-- The `section_header_pattern` alternatives (with `certifications?`
expanded). -/
def sectionHeaderWords : List String :=
  ["vaardigheden", "skills", "competenties", "ervaring", "experience",
   "opleiding", "education", "talen", "languages", "certificaten",
   "certification", "certifications"]

/-- The description-phrase markers. -/
def skillPhrases : List String :=
  ["responsible for", "working with", "experience with", "knowledge of",
   "verantwoordelijk voor", "ervaring met"]

/-- Four consecutive digits at the head (`\d{4}`); the rest follows. -/
def digits4 : List Char → Option (List Char)
  | a :: b :: c :: d :: rest =>
    if a.isDigit && b.isDigit && c.isDigit && d.isDigit then some rest
    else none
  | _ => none

/-- `\d{4}\s*[-–—]\s*\d{4}` anchored at the head. -/
def yearRangeAt (s : List Char) : Bool :=
  match digits4 s with
  | some r1 =>
    match r1.dropWhile pyIsSpace with
    | dl :: r3 =>
      if dl = '-' || dl = '–' || dl = '—' then
        (digits4 (r3.dropWhile pyIsSpace)).isSome
      else false
    | [] => false
  | none => false

/-- `(Jan|Feb|...|Dec)\s+\d{4}` (case-sensitive) anchored at the head. -/
def monthYearAt (s : List Char) : Bool :=
  ["Jan", "Feb", "Mar", "Apr", "May", "Jun", "Jul", "Aug", "Sep", "Oct",
   "Nov", "Dec"].any
    (fun m =>
      litAt m.toList s &&
        (let r := s.drop m.toList.length
         ((r.takeWhile pyIsSpace).length ≥ 1
           && (digits4 (r.dropWhile pyIsSpace)).isSome)))

/-- `re.search`: the anchored matcher holds at some suffix. -/
def anySuffix (f : List Char → Bool) : List Char → Bool
  | [] => f []
  | c :: cs => f (c :: cs) || anySuffix f cs

/-- `^page\s+\d+$` (IGNORECASE) on the whole item. -/
def pageNumberLike (s : List Char) : Bool :=
  litAtCI ['p', 'a', 'g', 'e'] s &&
    (let r := s.drop 4
     ((r.takeWhile pyIsSpace).length ≥ 1
       && !(r.dropWhile pyIsSpace).isEmpty
       && (r.dropWhile pyIsSpace).all Char.isDigit))

/-- The chain of `continue` guards of the `for item in skill_items` loop
(all pure checks, so the sequential guards amount to their disjunction,
in source order): length bounds; digits/dates-only; page numbers; year
ranges; month-year dates; noise words; section headers; over-long prose;
description phrases; digit-heavy items. -/
def skillSkip (item : List Char) : Bool :=
  item.isEmpty || item.length < 2 || item.length > 80
    || item.all (fun c => c.isDigit || pyIsSpace c || c = '-' || c = '/')
    || pageNumberLike item
    || anySuffix yearRangeAt item
    || anySuffix monthYearAt item
    || noise_words.contains (String.mk (lowList item))
    || sectionHeaderWords.contains (String.mk (lowList item))
    || (pySplitWS item).length > 10
    || skillPhrases.any (fun p => containsSubCI p.toList item)
    || 2 * (item.filter Char.isDigit).length > item.length

/-- The body of the `for item in skill_items` loop for one stripped item:
`none` when a filter skips it or it is a duplicate, else the `Skill` to
append and the normalization recorded into `seen_skills`. -/
def skillStep (item : List Char) (seen : List String) : Option (Skill × String) :=
  if skillSkip item then none
  else if seen.contains (String.mk ((lowList item).filter isWordChar)) then none
  else some ({ name := String.mk item },
    String.mk ((lowList item).filter isWordChar))

/-- The `for` loop over `skill_items`, threading `seen_skills`. -/
def extractSkillsLoop : List (List Char) → List String → List Skill
  | [], _ => []
  | item0 :: rest, seen =>
    match skillStep (pstripList item0) seen with
    | some (sk, norm) => sk :: extractSkillsLoop rest (norm :: seen)
    | none => extractSkillsLoop rest seen

/-- `GenericPDFExtractor._extract_skills`. -/
def extractSkills (text : String) : List Skill :=
  let items0 := splitOnDelims text.toList
  extractSkillsLoop
    (if items0.length < 3 then splitWS2Aux text.toList false else items0) []

end GenericPDFExtractor

/-- The dedup normalization applied to a skill's stored name
(`re.sub(r"[^\w]", "", item.lower())`). -/
def skillNorm (sk : Skill) : String :=
  String.mk ((lowList sk.name.toList).filter isWordChar)

/-- When the loop body keeps an item: the skill's name is the stripped
item, the recorded normalization is its word-character lowercase form,
and that normalization was not yet seen. -/
theorem skillStep_some (item : List Char) (seen : List String)
    (sk : Skill) (norm : String)
    (h : GenericPDFExtractor.skillStep item seen = some (sk, norm)) :
    sk.name = String.mk item
    ∧ norm = String.mk ((lowList item).filter isWordChar)
    ∧ seen.contains norm = false := by
  unfold GenericPDFExtractor.skillStep at h
  iterate 2
    (split at h
     · exact Option.noConfusion h)
  rename_i hseen
  simp only [Option.some.injEq, Prod.mk.injEq] at h
  obtain ⟨rfl, rfl⟩ := h
  exact ⟨rfl, rfl, by simpa using hseen⟩

/-- Defining equation of the loop on the empty item list. -/
theorem extractSkillsLoop_nil (seen : List String) :
    GenericPDFExtractor.extractSkillsLoop [] seen = [] := rfl

/-- Defining equation of the loop on a non-empty item list. -/
theorem extractSkillsLoop_cons (seen : List String) (item0 : List Char)
    (rest : List (List Char)) :
    GenericPDFExtractor.extractSkillsLoop (item0 :: rest) seen
      = (match GenericPDFExtractor.skillStep (pstripList item0) seen with
        | some (sk, norm) =>
          sk :: GenericPDFExtractor.extractSkillsLoop rest (norm :: seen)
        | none => GenericPDFExtractor.extractSkillsLoop rest seen) := rfl

/-- Loop invariant: extracted skills have pairwise distinct
normalizations, none of which was already in `seen_skills`. -/
theorem extractSkillsLoop_nodup (items : List (List Char)) :
    ∀ seen : List String,
      ((GenericPDFExtractor.extractSkillsLoop items seen).map skillNorm).Nodup
      ∧ ∀ sk ∈ GenericPDFExtractor.extractSkillsLoop items seen,
          seen.contains (skillNorm sk) = false := by
  induction items with
  | nil => intro seen; simp [extractSkillsLoop_nil]
  | cons item0 rest ih =>
    intro seen
    rw [extractSkillsLoop_cons]
    cases hstep : GenericPDFExtractor.skillStep (pstripList item0) seen with
    | none => exact ih seen
    | some p =>
      obtain ⟨sk, norm⟩ := p
      obtain ⟨hname, hnorm, hcont⟩ := skillStep_some _ _ _ _ hstep
      have hsknorm : skillNorm sk = norm := by
        rw [skillNorm, hname, hnorm]
        rfl
      obtain ⟨ihn, ihs⟩ := ih (norm :: seen)
      refine ⟨?_, ?_⟩
      · simp only [List.map_cons, List.nodup_cons]
        refine ⟨fun hmem => ?_, ihn⟩
        obtain ⟨sk2, hsk2, heq⟩ := List.mem_map.mp hmem
        have hf := ihs sk2 hsk2
        rw [heq, hsknorm] at hf
        simp [List.contains_cons] at hf
      · intro sk2 hsk2
        rcases List.mem_cons.mp hsk2 with rfl | h2
        · rw [hsknorm]; exact hcont
        · have hf := ihs sk2 h2
          simp only [List.contains_cons, Bool.or_eq_false_iff] at hf
          exact hf.2

/-- Claim C6: skills extraction deduplicates case- and
punctuation-insensitively, keeping the first-seen casing: on
`"Python, python, PYTHON"` exactly one Skill named `"Python"` results,
and in general the normalized names of the output are pairwise
distinct. -/
theorem claim_C6 :
    GenericPDFExtractor.extractSkills "Python, python, PYTHON"
      = [{ name := "Python" }]
    ∧ ∀ text : String,
      ((GenericPDFExtractor.extractSkills text).map skillNorm).Nodup := by
  refine ⟨by decide, fun text => ?_⟩
  exact (extractSkillsLoop_nodup _ []).1

/-! ## Extractor registry (`registry.py`) -/

/-- The interface of `base_extractor.ResumeExtractor` that selection
uses: the extractor's name and its `can_handle` predicate (`extract`
performs file I/O and is outside the embedded core). -/
structure ResumeExtractorSel where
  name : String
  canHandle : String → Bool

/-- Python `str.endswith(suffix)`. -/
def pyEndsWith (s suffix : String) : Bool :=
  litAt suffix.toList.reverse s.toList.reverse

/-- `DOCXExtractor.can_handle`:
`file_path.lower().endswith((".docx", ".doc"))`. -/
def docxCanHandle (file_path : String) : Bool :=
  pyEndsWith (plower file_path) ".docx" || pyEndsWith (plower file_path) ".doc"

/-- `GenericPDFExtractor.can_handle`:
`file_path.lower().endswith(".pdf")`. -/
def genericPdfCanHandle (file_path : String) : Bool :=
  pyEndsWith (plower file_path) ".pdf"

/-- Modelled from the spec: the module `linkedin_pdf_extractor.py` is not
under src/, so `LinkedInPDFExtractor.can_handle` is missing; per the spec
it inspects document producer metadata and page-content markers (an
export signature), which a path-only embedding cannot compute.  The
registry is therefore parameterized by an arbitrary predicate standing
for it, and the claims below hold for every such predicate. -/
def EXTRACTORS (linkedinCanHandle : String → Bool) : List ResumeExtractorSel :=
  [{ name := "LinkedIn PDF", canHandle := linkedinCanHandle },
   { name := "DOCX", canHandle := docxCanHandle },
   { name := "Generic PDF", canHandle := genericPdfCanHandle }]

/-- The error message of `get_extractor`. -/
def noExtractorMsg (file_path : String) : String :=
  s!"No suitable extractor found for: {file_path}. Supported formats: PDF, DOCX"

/-- The `for extractor_class in EXTRACTORS` loop of `get_extractor`:
first extractor whose `can_handle` accepts the path, else the
`ValueError` (modelled as `Except.error`). -/
def getExtractorFrom : List ResumeExtractorSel → String →
    Except String ResumeExtractorSel
  | [], file_path => Except.error (noExtractorMsg file_path)
  | e :: rest, file_path =>
    if e.canHandle file_path then Except.ok e
    else getExtractorFrom rest file_path

/-- `registry.get_extractor` (the `use_ocr` flag only parameterizes the
constructed instances and plays no role in selection). -/
def get_extractor (linkedinCanHandle : String → Bool) (file_path : String) :
    Except String ResumeExtractorSel :=
  getExtractorFrom (EXTRACTORS linkedinCanHandle) file_path

/-- A default for positional indexing into the registry list. -/
def noExtractor : ResumeExtractorSel :=
  { name := "", canHandle := fun _ => false }

/-- The selection loop errors exactly when no predicate accepts. -/
theorem getExtractorFrom_error (l : List ResumeExtractorSel) (path : String) :
    getExtractorFrom l path = Except.error (noExtractorMsg path)
      ↔ ∀ e ∈ l, e.canHandle path = false := by
  induction l with
  | nil => simp [getExtractorFrom]
  | cons x rest ih =>
    rw [getExtractorFrom]
    by_cases hx : x.canHandle path = true
    · simp [hx, List.forall_mem_cons]
    · have hx2 : x.canHandle path = false := by simpa using hx
      rw [if_neg (by simp [hx2])]
      simp [ih, hx2, List.forall_mem_cons]

/-- When the selection loop returns an extractor, it is the first
accepting one. -/
theorem getExtractorFrom_ok (l : List ResumeExtractorSel) (path : String)
    (e : ResumeExtractorSel) (h : getExtractorFrom l path = Except.ok e) :
    e.canHandle path = true
    ∧ ∃ i < l.length, l.getD i noExtractor = e
        ∧ ∀ j < i, (l.getD j noExtractor).canHandle path = false := by
  induction l generalizing e with
  | nil => simp [getExtractorFrom] at h
  | cons x rest ih =>
    rw [getExtractorFrom] at h
    by_cases hx : x.canHandle path = true
    · rw [if_pos hx] at h
      obtain rfl : x = e := by simpa using h
      exact ⟨hx, 0, by simp, by simp, by omega⟩
    · rw [if_neg hx] at h
      obtain ⟨he, i, hi, hget, hprev⟩ := ih e h
      refine ⟨he, i + 1, by simpa using hi, by simpa using hget, ?_⟩
      intro j hj
      cases j with
      | zero =>
        simpa using (by simpa using hx : x.canHandle path = false)
      | succ k =>
        have := hprev k (by omega)
        simpa using this

/-- Claim C8: for every file path (and every LinkedIn detector
predicate), `get_extractor` returns the first extractor in the
priority-ordered registry whose `can_handle` accepts the path, and
raises the "no suitable extractor" `ValueError` exactly when no
registered extractor accepts it. -/
theorem claim_C8 (lk : String → Bool) (path : String) :
    (get_extractor lk path = Except.error (noExtractorMsg path)
      ↔ ∀ e ∈ EXTRACTORS lk, e.canHandle path = false)
    ∧ (∀ e, get_extractor lk path = Except.ok e →
        e.canHandle path = true
        ∧ ∃ i < (EXTRACTORS lk).length,
            (EXTRACTORS lk).getD i noExtractor = e
            ∧ ∀ j < i,
              ((EXTRACTORS lk).getD j noExtractor).canHandle path = false) :=
  ⟨getExtractorFrom_error (EXTRACTORS lk) path,
   fun e h => getExtractorFrom_ok (EXTRACTORS lk) path e h⟩

/-- Claim C8, witness: with a LinkedIn detector that accepts nothing, a
`.pdf` path selects the generic PDF extractor (the two higher-priority
predicates reject it), and a `.txt` path yields the error. -/
theorem claim_C8_witness :
    ({ name := "Generic PDF", canHandle := genericPdfCanHandle }
        : ResumeExtractorSel).canHandle "cv.pdf" = true
    ∧ get_extractor (fun _ => false) "notes.txt"
      = Except.error (noExtractorMsg "notes.txt") :=
  ⟨((claim_C8 (fun _ => false) "cv.pdf").2
      { name := "Generic PDF", canHandle := genericPdfCanHandle } rfl).1,
   (claim_C8 (fun _ => false) "notes.txt").1.mpr (by decide)⟩

/-! ## Work experience extraction
(`GenericPDFExtractor._extract_work_experience`)

The split pattern is
`((?:EN|NL)\s+\d{4})\s*[-–—]\s*((?:EN|NL)\s+\d{4}|PRESENT)` with
`re.IGNORECASE`; `re.split` with two capture groups interleaves the
captured start/end date strings with the surrounding text. -/

namespace GenericPDFExtractor

/-- The English month alternatives of `months_en`, in alternation
order. -/
def months_en : List String :=
  ["January", "February", "March", "April", "May", "June", "July",
   "August", "September", "October", "November", "December", "Jan", "Feb",
   "Mar", "Apr", "May", "Jun", "Jul", "Aug", "Sep", "Sept", "Oct", "Nov",
   "Dec"]

/-- The Dutch month alternatives of `months_nl`, in alternation order. -/
def months_nl : List String :=
  ["januari", "februari", "maart", "april", "mei", "juni", "juli",
   "augustus", "september", "oktober", "november", "december", "jan",
   "feb", "mrt", "apr", "mei", "jun", "jul", "aug", "sep", "okt", "nov",
   "dec"]

/-- The `present_keywords` alternatives of the split pattern. -/
def presentAlts : List String :=
  ["Present", "present", "Current", "current", "Heden", "heden", "Nu", "nu"]

/-- `(?:months)\s+\d{4}` at the head: alternatives tried in order, each
ceding to the next when its continuation fails; the matched length.  (At
one position at most one alternative can complete, since completing
requires whitespace right after the month word.) -/
def altMonthYear : List String → List Char → Option Nat
  | [], _ => none
  | m :: more, s =>
    if litAtCI m.toList s then
      let r := s.drop m.toList.length
      if (r.takeWhile pyIsSpace).length ≥ 1
          && (digits4 (r.dropWhile pyIsSpace)).isSome then
        some (m.toList.length + (r.takeWhile pyIsSpace).length + 4)
      else altMonthYear more s
    else altMonthYear more s

/-- A present keyword at the head (case-insensitive); the matched
length. -/
def presentAt : List String → List Char → Option Nat
  | [], _ => none
  | kw :: more, s =>
    if litAtCI kw.toList s then some kw.toList.length else presentAt more s

/-- The second capture group: a month-year, else a present keyword. -/
def altGroup2 (s : List Char) : Option Nat :=
  match altMonthYear (months_en ++ months_nl) s with
  | some n => some n
  | none => presentAt presentAlts s

/-- The whole date-range pattern anchored at the head: lengths of capture
group 1, of the `\s*[-–—]\s*` separator, and of capture group 2. -/
def dateRangeAt (s : List Char) : Option (Nat × Nat × Nat) :=
  match altMonthYear (months_en ++ months_nl) s with
  | none => none
  | some g1 =>
    let r := s.drop g1
    let w1 := (r.takeWhile pyIsSpace).length
    match r.drop w1 with
    | d :: r2 =>
      if d = '-' || d = '–' || d = '—' then
        match altGroup2 (r2.drop ((r2.takeWhile pyIsSpace).length)) with
        | some g2 => some (g1, w1 + 1 + (r2.takeWhile pyIsSpace).length, g2)
        | none => none
      else none
    | [] => none

/-- `re.search` of the date-range pattern: it matches at some suffix. -/
def hasDateRange (s : List Char) : Bool :=
  anySuffix (fun suf => (dateRangeAt suf).isSome) s

/-- The scan of `re.split(date_range_pattern, text)`: pieces of
surrounding text interleaved with the two captured groups.  `fuel` only
bounds the recursion (a match always consumes at least one character);
`acc` is the reversed text accumulated since the last match. -/
def drSplitGo : Nat → List Char → List Char → List String
  | _, [], acc => [String.mk acc.reverse]
  | 0, rest, acc => [String.mk (acc.reverse ++ rest)]
  | fuel + 1, c :: cs, acc =>
    match dateRangeAt (c :: cs) with
    | some (g1, mid, g2) =>
      String.mk acc.reverse
        :: String.mk ((c :: cs).take g1)
        :: String.mk (((c :: cs).drop (g1 + mid)).take g2)
        :: drSplitGo fuel ((c :: cs).drop (g1 + mid + g2)) []
    | none => drSplitGo fuel cs (c :: acc)

/-- `re.split(date_range_pattern, text, flags=re.IGNORECASE)`. -/
def dateRangeSplit (text : String) : List String :=
  drSplitGo (text.toList.length + 1) text.toList []

/-- `\b(19|20)\d{2}\b` anchored at offset `p` of `s`: the year value. -/
def yearAt (s : List Char) (p : Nat) : Option Nat :=
  match s.drop p with
  | a :: b :: c :: d :: rest =>
    if ((a = '1' && b = '9') || (a = '2' && b = '0'))
        && c.isDigit && d.isDigit
        && (p = 0 || !isWordChar (s.getD (p - 1) ' '))
        && (match rest with | [] => true | e :: _ => !isWordChar e) then
      some ((a.toNat - 48) * 1000 + (b.toNat - 48) * 100
        + (c.toNat - 48) * 10 + (d.toNat - 48))
    else none
  | _ => none

/-- Leftmost year match (`re.search(r"\b(19|20)\d{2}\b", date_str)`). -/
def findYearFrom (s : List Char) : List Char → Nat → Option Nat
  | [], p => yearAt s p
  | _ :: cs, p =>
    match yearAt s p with
    | some y => some y
    | none => findYearFrom s cs (p + 1)

/-- The `month_names` table of `_parse_date`, in insertion order. -/
def month_names : List (String × Nat) :=
  [("jan", 1), ("januari", 1), ("january", 1),
   ("feb", 2), ("februari", 2), ("february", 2),
   ("mrt", 3), ("maart", 3), ("mar", 3), ("march", 3),
   ("apr", 4), ("april", 4),
   ("mei", 5), ("may", 5),
   ("jun", 6), ("juni", 6), ("june", 6),
   ("jul", 7), ("juli", 7), ("july", 7),
   ("aug", 8), ("augustus", 8), ("august", 8),
   ("sep", 9), ("sept", 9), ("september", 9),
   ("okt", 10), ("oct", 10), ("oktober", 10), ("october", 10),
   ("nov", 11), ("november", 11),
   ("dec", 12), ("december", 12)]

/-- First table month occurring in the lowercased date string. -/
def firstMonthIn : List (String × Nat) → List Char → Option Nat
  | [], _ => none
  | (name, num) :: more, s =>
    if containsSubCI name.toList s then some num else firstMonthIn more s

/-- `GenericPDFExtractor._parse_date` on the month-year strings the date
split captures: `dateutil.parser.parse` (an external collaborator)
resolves the English month names with day defaulting to 1, and the
Dutch ones fall to the except-branch, which finds `\b(19|20)\d{2}\b` and
the first `month_names` entry contained in the lowercased string — both
paths give `date(year, month, 1)`, which is what this function computes
(year-only strings give January, and no year gives `None`). -/
def parseDate (date_str : String) : Option PyDate :=
  match findYearFrom date_str.toList date_str.toList 0 with
  | none => none
  | some year =>
    match firstMonthIn month_names date_str.toList with
    | some m => some ⟨year, m, 1⟩
    | none => some ⟨year, 1, 1⟩

/-- Python `str.isupper()` on ASCII text: some cased character, and no
lowercase one. -/
def pyIsUpper (s : List Char) : Bool :=
  s.any Char.isAlpha && s.all (fun c => !c.isLower)

/-- Non-empty stripped lines of a string (the
`[line.strip() for line in t.split("\n") if line.strip()]`
comprehensions). -/
def strippedLines (s : String) : List String :=
  ((s.toList.splitOn '\n').map (fun l => pstripList l)).filterMap
    (fun l => if l.isEmpty then none else some (String.mk l))

/-- Description collection: walk the first lines until one looks like a
new ALL-CAPS job header (uppercase, longer than 5, not a bullet). -/
def takeDescLines : List String → List String
  | [] => []
  | line :: rest =>
    if pyIsUpper line.toList && line.length > 5
        && !(line.toList.head? = some '•') then []
    else line :: takeDescLines rest

/-- The `re.search(r"(bij|voor|at)\s+(.+)", company, re.IGNORECASE)`
alternation at one position: the remainder that group 2 captures (the
maximal-whitespace split, backed off by one space when nothing would
remain for `.+`). -/
def bijAlt : List String → List Char → Option (List Char)
  | [], _ => none
  | kw :: more, suf =>
    if litAtCI kw.toList suf then
      let r := suf.drop kw.toList.length
      let w0 := (r.takeWhile pyIsSpace).length
      if w0 ≥ 1 && !(r.drop w0).isEmpty then some (r.drop w0)
      else if w0 ≥ 2 then some (r.drop (w0 - 1))
      else bijAlt more suf
    else bijAlt more suf

/-- Leftmost `(bij|voor|at)\s+(.+)` match: the captured group 2. -/
def bijSearch : List Char → Option (List Char)
  | [] => none
  | c :: cs =>
    match bijAlt ["bij", "voor", "at"] (c :: cs) with
    | some g => some g
    | none => bijSearch cs

/-- The `contractor_keywords` list. -/
def contractor_keywords : List String :=
  ["Freelance", "Contractor", "Consultant", "Zelfstandig", "Zzp", "ZZP"]

/-- Build one `WorkExperience` from the split pieces around one matched
date range (the body of the `while` loop's grouped branch).  Note the
source checks `is_contractor and exp.description` before `description`
is first assigned, so the contractor prefix is never prepended; the
check is kept for fidelity but has no effect. -/
def buildWorkEntry (before_text start_date_str end_date_str
    content_after : String) : WorkExperience :=
  let start_date := parseDate start_date_str
  let isCurrent := ["heden", "present", "current", "nu"].any
    (fun kw => containsSubCI kw.toList end_date_str.toList)
  let end_date := if isCurrent then none else parseDate end_date_str
  let lines_before := strippedLines before_text
  let posEmp : Option String × Option String :=
    if lines_before.length ≥ 2 then
      let potential_position := lines_before.getD (lines_before.length - 2) ""
      let potential_company := lines_before.getD (lines_before.length - 1) ""
      match bijSearch potential_company.toList with
      | some g2 => (some potential_position, some (String.mk (pstripList g2)))
      | none => (some potential_position, some potential_company)
    else
      match lines_before.getLast? with
      | some last => (some last, none)
      | none => (none, none)
  let is_contractor := contractor_keywords.any
    (fun kw =>
      containsSubCI (lowList kw.toList) (lowList (posEmp.1.getD "").toList)
        || (optTruthy posEmp.2
          && containsSubCI (lowList kw.toList) (lowList (posEmp.2.getD "").toList)))
  let desc0 : Option String := none
  let desc1 := if is_contractor && optTruthy desc0 then
      (desc0.map (fun d => "Contractor/Freelance\n" ++ d)) else desc0
  let desc_lines := takeDescLines ((strippedLines content_after).take 20)
  let description := if desc_lines.isEmpty then desc1
    else some (String.intercalate "\n" (desc_lines.take 10))
  { position := posEmp.1, employer := posEmp.2, start_date := start_date,
    end_date := end_date, current := isCurrent, description := description }

/-- The `while i < len(entries)` loop: a window of three pieces plus the
following content is one candidate entry; too-short or empty pieces
shift the window by one (`i += 1`), an accepted entry consumes three
(`i += 3`, landing on its trailing content). -/
def processEntries : List String → List WorkExperience
  | before :: sd :: ed :: rest =>
    let before_text := pstrip before
    let start_date_str := pstrip sd
    let end_date_str := pstrip ed
    let content_after := pstrip (rest.headD "")
    if !start_date_str.isEmpty && !end_date_str.isEmpty
        && !before_text.isEmpty then
      if before_text.length < 5 then processEntries (sd :: ed :: rest)
      else
        buildWorkEntry before_text start_date_str end_date_str content_after
          :: processEntries rest
    else processEntries (sd :: ed :: rest)
  | _ => []

/-- `GenericPDFExtractor._extract_work_experience`: split on the
date-range pattern, process the windows, and fall back to one
description-only entry when nothing structured was found. -/
def extractWorkExperience (text : String) : List WorkExperience :=
  let experiences := processEntries (dateRangeSplit text)
  if experiences.isEmpty && !(pstrip text).isEmpty then
    [{ description := some (String.mk ((pstrip text).toList.take 1000)) }]
  else experiences

end GenericPDFExtractor

/-- When the date-range pattern matches no suffix, the split scan
returns the accumulated text in one piece. -/
theorem drSplitGo_noMatch (s : List Char) :
    ∀ (fuel : Nat) (acc : List Char),
      GenericPDFExtractor.anySuffix
        (fun suf => (GenericPDFExtractor.dateRangeAt suf).isSome) s = false →
      GenericPDFExtractor.drSplitGo fuel s acc
        = [String.mk (acc.reverse ++ s)] := by
  induction s with
  | nil =>
    intro fuel acc _
    cases fuel <;> simp [GenericPDFExtractor.drSplitGo]
  | cons c cs ih =>
    intro fuel acc hnm
    simp only [GenericPDFExtractor.anySuffix, Bool.or_eq_false_iff] at hnm
    have hnone : GenericPDFExtractor.dateRangeAt (c :: cs) = none :=
      Option.not_isSome_iff_eq_none.mp (by simp [hnm.1])
    cases fuel with
    | zero => rfl
    | succ fuel =>
      rw [GenericPDFExtractor.drSplitGo, hnone]
      rw [ih fuel (c :: acc) hnm.2]
      simp

/-- Claim C7: on a non-empty work-experience text in which the
month/year date-range pattern matches nowhere, extraction returns
exactly one `WorkExperience`, whose description is the stripped input
capped at 1000 characters (and, being a total function, it raises
nothing). -/
theorem claim_C7 (text : String) (h1 : pstrip text ≠ "")
    (h2 : GenericPDFExtractor.hasDateRange text.toList = false) :
    GenericPDFExtractor.extractWorkExperience text
      = [{ description := some (String.mk ((pstrip text).toList.take 1000)) }] := by
  have hsplit : GenericPDFExtractor.dateRangeSplit text = [text] := by
    rw [GenericPDFExtractor.dateRangeSplit,
      drSplitGo_noMatch text.toList _ [] h2]
    rfl
  have hempty : (pstrip text).isEmpty = false := by
    cases he : (pstrip text).isEmpty
    · rfl
    · exact absurd ((String.isEmpty_iff (pstrip text)).mp he) h1
  rw [GenericPDFExtractor.extractWorkExperience, hsplit]
  simp [GenericPDFExtractor.processEntries, hempty]

/-- Claim C7, witness: a Dutch prose-only section (no date range in it)
becomes one description-only entry through the theorem. -/
theorem claim_C7_witness :
    GenericPDFExtractor.extractWorkExperience "Deed allerlei dingen bij ACME"
      = [{ description := some "Deed allerlei dingen bij ACME" }] :=
  claim_C7 "Deed allerlei dingen bij ACME" (by decide) (by decide)

end EuroCV

